import Mathlib

/-!
# Chess relay server (`src/server/main.c`): registry and protocol state machine

A shallow embedding of the parts of `start_listening` that decide how one
received record, one socket shutdown and one write-ready flush change the
client table `clients`, the variable `awaiting` and the two interest sets
`r_mask` and `w_mask`.

Conventions of the embedding.

* A C string is the list of its characters before the terminating NUL.
* `uint` ids, the `int` descriptors and `awaiting` are natural numbers: the
  code only ever stores non-negative values in them.  The one place where a
  machine width matters, the cast `(uint) l_id`, is written `% 2 ^ 32`, and
  `strtol` saturates at the bounds of a 64-bit `long`.
* `clients` is a total function on indices; the C array has the `MAX_CLIENTS`
  slots `0 .. 99`.  The handlers index it with a parsed id (checked to be below
  `MAX_CLIENTS`), with `awaiting`, with an `opponent_id` and, in the flush, with
  the result of the reverse lookup, whose variable `c_id` is declared without an
  initialiser: its indeterminate start value is the parameter `c0`.
* An `fd_set` is its membership function.
* The receive buffer `buf` is declared without an initialiser inside the loop
  body and line 161 clears it only up to its first NUL, so the bytes that follow
  the `r_count` received ones are indeterminate: they are the parameter `tail`
  of `process_record`.  The string the code parses is the C string of the
  received bytes followed by `tail`.  Only when the received bytes themselves
  hold a NUL is that string independent of `tail`, and only then does
  `strcpy(msg, buf)` stay inside the `r_count` bytes of `msg`.
-/

namespace Chess

/-! ## Constants -/

/-- Source: `#define MAX_CLIENTS 100`. -/
def MAX_CLIENTS : Nat := 100

/-- Source: `#define RECONNECT_EVENT "RECONNECT"`. -/
def RECONNECT_EVENT : List Char := ['R', 'E', 'C', 'O', 'N', 'N', 'E', 'C', 'T']

/-- Source: `#define BEGIN_EVENT "BEGIN"`. -/
def BEGIN_EVENT : List Char := ['B', 'E', 'G', 'I', 'N']

/-- Source: `#define END_EVENT "END"`. -/
def END_EVENT : List Char := ['E', 'N', 'D']

/-- Source: `#define WHITE_COLOR "WHITE"`. -/
def WHITE_COLOR : List Char := ['W', 'H', 'I', 'T', 'E']

/-- Source: `#define BLACK_COLOR "BLACK"`. -/
def BLACK_COLOR : List Char := ['B', 'L', 'A', 'C', 'K']

/-! ## Data model -/

/-- Source: `typedef struct { ... } client_t`.  `color` is a pointer that is
either `NULL` (`none`) or points at one of the two colour literals. -/
structure client_t where
  id : Nat
  opponent_id : Nat
  color : Option (List Char)
  result : Int
  fd : Nat
  response : List Char
  sent_ctr : Nat
deriving DecidableEq, Repr

/-- Source: `static const client_t empty_client_t;` (zero-initialised). -/
def empty_client_t : client_t :=
  { id := 0, opponent_id := 0, color := none, result := 0, fd := 0,
    response := [], sent_ctr := 0 }

/-- The membership function of an `fd_set`. -/
abbrev fd_set := Nat → Bool

/-- Source: `FD_ZERO`. -/
def FD_ZERO : fd_set := fun _ => false

/-- Source: `FD_SET(fd, &mask)`. -/
def FD_SET (fd : Nat) (mask : fd_set) : fd_set := Function.update mask fd true

/-- Source: `FD_CLR(fd, &mask)`. -/
def FD_CLR (fd : Nat) (mask : fd_set) : fd_set := Function.update mask fd false

/-- Source: `FD_ISSET(fd, &mask)`. -/
def FD_ISSET (fd : Nat) (mask : fd_set) : Bool := mask fd

/-- The variables of `start_listening` that outlive one loop iteration,
together with the global `clients`. -/
structure State where
  clients : Nat → client_t
  awaiting : Nat
  r_mask : fd_set
  w_mask : fd_set

/-- The state on entry to the `while (1)` loop: `clients` is a zeroed global,
`awaiting = 0`, both masks are `FD_ZERO`. -/
def State.init : State :=
  { clients := fun _ => empty_client_t, awaiting := 0, r_mask := FD_ZERO, w_mask := FD_ZERO }

/-! ## Field assignments `clients[j].f = v` -/

/-- Source: `clients[j].id = v`. -/
def set_id (cl : Nat → client_t) (j v : Nat) : Nat → client_t :=
  Function.update cl j { cl j with id := v }

/-- Source: `clients[j].opponent_id = v`. -/
def set_opponent_id (cl : Nat → client_t) (j v : Nat) : Nat → client_t :=
  Function.update cl j { cl j with opponent_id := v }

/-- Source: `clients[j].color = v`. -/
def set_color (cl : Nat → client_t) (j : Nat) (v : List Char) : Nat → client_t :=
  Function.update cl j { cl j with color := some v }

/-- Source: `clients[j].fd = v`. -/
def set_fd (cl : Nat → client_t) (j v : Nat) : Nat → client_t :=
  Function.update cl j { cl j with fd := v }

/-- Source: writing the C string `v` into `clients[j].response`
(`strcpy`, `snprintf`, and `memset` to zero for `v = ""`). -/
def set_response (cl : Nat → client_t) (j : Nat) (v : List Char) : Nat → client_t :=
  Function.update cl j { cl j with response := v }

/-- Source: `clients[j].sent_ctr++`. -/
def incr_sent_ctr (cl : Nat → client_t) (j : Nat) : Nat → client_t :=
  Function.update cl j { cl j with sent_ctr := (cl j).sent_ctr + 1 }

/-! ## C library functions used by the record parser -/

/-- The C string held in a byte buffer: the bytes before the first NUL
(what `strcpy(msg, buf)` copies). -/
def c_str (buf : List Char) : List Char := buf.takeWhile (fun c => c != '\x00')

/-- Source: `strstr(msg, ":") == NULL` is `has_colon msg = false`. -/
def has_colon (msg : List Char) : Bool := msg.contains ':'

/-- Source: `token = strsep(&str, ":")` on a non-NULL `str`: the returned token
is the text before the first `':'`; the new `str` is the text after it, or
`NULL` (`none`) when there is no `':'`. -/
def strsep : List Char → List Char × Option (List Char)
  | [] => ([], none)
  | c :: cs =>
    if c = ':' then ([], some cs)
    else ((c :: (strsep cs).1), (strsep cs).2)

/-- Source: `isspace` in the C locale. -/
def isspace (c : Char) : Bool :=
  c = ' ' || c = '\t' || c = '\n' || c = '\x0b' || c = '\x0c' || c = '\r'

/-- Source: `isdigit`. -/
def isdigit (c : Char) : Bool := 48 ≤ c.toNat && c.toNat ≤ 57

/-- Source: `LONG_MAX` of a 64-bit `long`. -/
def LONG_MAX : Int := 2 ^ 63 - 1

/-- Source: `LONG_MIN` of a 64-bit `long`. -/
def LONG_MIN : Int := -(2 ^ 63)

/-- The value of a run of decimal digits. -/
def digits_value (ds : List Char) : Nat :=
  ds.foldl (fun acc c => 10 * acc + (c.toNat - 48)) 0

/-- Source: `strtol(nptr, &ptr, 10)`.  Skips leading white space, takes an
optional sign and the longest run of decimal digits, saturates at
`LONG_MIN`/`LONG_MAX`, and returns the value with the unparsed rest `ptr`; with
no digits it returns `0` and `ptr = nptr`. -/
def strtol (nptr : List Char) : Int × List Char :=
  let s1 := nptr.dropWhile isspace
  let neg : Bool := match s1 with
    | '-' :: _ => true
    | _ => false
  let s2 : List Char := match s1 with
    | '-' :: t => t
    | '+' :: t => t
    | _ => s1
  let ds := s2.takeWhile isdigit
  if ds = [] then (0, nptr)
  else
    let v : Int := (digits_value ds : Nat)
    (if neg then max LONG_MIN (-v) else min LONG_MAX v, s2.dropWhile isdigit)

/-- Source: the conversion `%d` of an id (ids are below `2 ^ 31`). -/
def fmt_d (n : Nat) : List Char := Nat.toDigits 10 n

/-- Source: `snprintf(clients[c_id].response, 32, "%d:%s", c_id, color)`: at
most 31 characters are stored. -/
def handshake_response (c_id : Nat) (color : Option (List Char)) : List Char :=
  (fmt_d c_id ++ ':' :: color.getD ['(', 'n', 'u', 'l', 'l', ')']).take 31

/-! ## The handlers of the event loop -/

/-- Source: the body of `for (uint j = 1; j < MAX_CLIENTS; j++)` at lines
189-194, run for at most `n` more values of `j`; the result is `c_id`, which
stays `0` when no slot is free. -/
def scan_free (cl : Nat → client_t) : Nat → Nat → Nat
  | 0, _ => 0
  | n + 1, j => if (cl j).id = 0 then j else scan_free cl n (j + 1)

/-- Source: lines 184-194, the first free id in `1 .. MAX_CLIENTS - 1`, else 0. -/
def first_free (cl : Nat → client_t) : Nat := scan_free cl (MAX_CLIENTS - 1) 1

/-- Source: lines 186-223, the `BEGIN` branch for a record read on socket `i`. -/
def handle_begin (i : Nat) (s : State) : State :=
  let c_id := first_free s.clients
  if c_id = 0 then s
  else
    let cl := set_fd (set_id s.clients c_id c_id) c_id i
    if s.awaiting = 0 then
      let cl := set_color cl c_id WHITE_COLOR
      let cl := set_response cl c_id (handshake_response c_id (cl c_id).color)
      { s with clients := cl, awaiting := c_id }
    else
      let cl := set_color cl c_id BLACK_COLOR
      let cl := set_opponent_id cl c_id s.awaiting
      let cl := set_opponent_id cl s.awaiting c_id
      let w := FD_SET (cl s.awaiting).fd (FD_SET i s.w_mask)
      let cl := set_response cl c_id (handshake_response c_id (cl c_id).color)
      { s with clients := cl, awaiting := 0, w_mask := w }

/-- Source: lines 255-261, the `END` branch. -/
def handle_end (i c_id : Nat) (s : State) : State :=
  { s with clients := Function.update s.clients c_id empty_client_t,
           w_mask := FD_CLR i s.w_mask, r_mask := FD_CLR i s.r_mask }

/-- Source: lines 262-266, the `RECONNECT` branch. -/
def handle_reconnect (i c_id : Nat) (s : State) : State :=
  { s with clients := set_fd s.clients c_id i, w_mask := FD_SET i s.w_mask }

/-- Source: lines 267-281, the relay branch for the payload `token`. -/
def handle_move (i c_id : Nat) (token : List Char) (s : State) : State :=
  let cl := set_response s.clients (s.clients c_id).opponent_id token
  if (cl c_id).id = 0 then { s with clients := cl }
  else
    let cl := set_fd cl c_id i
    { s with clients := cl, w_mask := FD_SET (cl (cl c_id).opponent_id).fd s.w_mask }

/-- A receive buffer that is clean behind the received bytes: the next byte of
the array is NUL. -/
def clean_tail : List Char := ['\x00']

/-- Source: line 161, `memset(buf, 0, strlen(buf))` applied to the array content
`old`: only the bytes before the first NUL are cleared. -/
def memset_strlen (old : List Char) : List Char :=
  List.replicate (c_str old).length '\x00' ++ old.drop (c_str old).length

/-- Source: lines 160-162, the bytes that follow the `r_count` received ones in
`buf` when the array held `old` on entry (the bytes an earlier iteration left on
the stack). -/
def stale_tail (old : List Char) (r_count : Nat) : List Char :=
  (memset_strlen old).drop r_count

/-- Source: lines 160-162 and 178-284, what a successful `recv` on socket `i`
does to the state.  `recvd` are the `r_count` bytes that `recv` stored at the
start of `buf` and `tail` the indeterminate bytes that follow them in the array;
`msg` is the C string that `strcpy(msg, buf)` copies. -/
def process_record (i : Nat) (recvd tail : List Char) (s : State) : State :=
  let msg := c_str (recvd ++ tail)
  if msg = BEGIN_EVENT then handle_begin i s
  else if has_colon msg = false then s
  else
    let id_str := (strsep msg).1
    let str := ((strsep msg).2).getD []
    let l_id := (strtol id_str).1
    let ptr := (strtol id_str).2
    if ptr.length > 0 ∨ l_id < 0 then s
    else
      let c_id := l_id.toNat % 2 ^ 32
      if c_id ≥ MAX_CLIENTS then s
      else
        let token := (strsep str).1
        if token = END_EVENT then handle_end i c_id s
        else if token = RECONNECT_EVENT then handle_reconnect i c_id s
        else handle_move i c_id token s

/-- Source: lines 171-177, a `recv` that returns 0 on socket `i`. -/
def process_close (i : Nat) (s : State) : State :=
  { s with awaiting := if s.awaiting = i then 0 else s.awaiting,
           r_mask := FD_CLR i s.r_mask }

/-- Source: lines 290-295, the reverse lookup; `c_id` is declared without an
initialiser, `c0` is the value it happens to hold, and the loop has no `break`,
so the last matching slot wins. -/
def lookup_by_fd (cl : Nat → client_t) (i c0 : Nat) : Nat :=
  (List.range' 1 (MAX_CLIENTS - 1)).foldl (fun c j => if (cl j).fd = i then j else c) c0

/-- Source: lines 288-329, the write section for socket `i` when it is in
`tmp_w_mask`; `s_count` is what `send` returns. -/
def process_flush (i c0 : Nat) (s_count : Int) (s : State) : State :=
  let c_id := lookup_by_fd s.clients i c0
  if c_id = 0 then s
  else if (s.clients c_id).response = [] then s
  else if s_count < 0 then s
  else if s_count = 0 then s
  else
    let cl := incr_sent_ctr (set_response s.clients c_id []) c_id
    { s with clients := cl,
             awaiting := if s.awaiting = c_id then 0 else s.awaiting,
             w_mask := FD_CLR i s.w_mask }

/-- Source: lines 140-153, a successful `accept` returning `cfd`. -/
def process_accept (cfd : Nat) (s : State) : State :=
  { s with r_mask := FD_SET cfd s.r_mask }

/-- One thing the loop does to the state. -/
inductive Event where
  | accept (cfd : Nat)
  | recv (i : Nat) (recvd tail : List Char)
  | close (i : Nat)
  | flush (i c0 : Nat) (s_count : Int)

/-- The effect of one event. -/
def step (s : State) : Event → State
  | .accept cfd => process_accept cfd s
  | .recv i recvd tail => process_record i recvd tail s
  | .close i => process_close i s
  | .flush i c0 n => process_flush i c0 n s

/-- The effect of a sequence of events, oldest first. -/
def run (s : State) (es : List Event) : State := es.foldl step s

/-- States reachable from the initial one by events that each satisfy the
guard `P` in the state they are applied to. -/
inductive ReachableBy (P : State → Event → Prop) : State → Prop where
  | init : ReachableBy P State.init
  | step {s : State} (e : Event) : ReachableBy P s → P s e → ReachableBy P (step s e)

/-- States reachable from the initial one by any sequence of loop events. -/
def Reachable (s : State) : Prop := ReachableBy (fun _ _ => True) s

/-- The state after two peers, on the sockets 4 and 5, have sent `BEGIN` with its
terminating NUL and both acknowledgments (7 bytes each) have been flushed:
records 1 and 2 are paired. -/
def paired_4_5 : State :=
  run State.init [.recv 4 (BEGIN_EVENT ++ ['\x00']) clean_tail,
    .recv 5 (BEGIN_EVENT ++ ['\x00']) clean_tail, .flush 4 0 7, .flush 5 0 7]

/-! ## Vocabulary of the specification -/

/-- Slot `c` is the lowest free id: it lies in `1 .. MAX_CLIENTS - 1`, its `id`
field is `0`, and every lower id from `1` on is taken. -/
def LowestFree (cl : Nat → client_t) (c : Nat) : Prop :=
  1 ≤ c ∧ c < MAX_CLIENTS ∧ (cl c).id = 0 ∧ ∀ k, 1 ≤ k → k < c → (cl k).id ≠ 0

/-- The id that `process_record` extracts from the array content `buf`: the
`strtol` value of the text before the first `':'`, cast to `uint` (lines
234-246). -/
def parsed_id (buf : List Char) : Nat :=
  ((strtol (strsep (c_str buf)).1).1).toNat % 2 ^ 32

/-- The second `':'`-separated field of the C string in `buf`, the `token` of
line 253. -/
def second_field (buf : List Char) : List Char :=
  (strsep (((strsep (c_str buf)).2).getD [])).1

/-- Event guard: every receive delivers its record together with the
terminating NUL (the received bytes hold a NUL), and the record so delimited
does not have `END` as its second field (no Terminate record).  The bytes
behind the received ones are not constrained. -/
def no_terminate (_ : State) : Event → Prop
  | .recv _ recvd _ => '\x00' ∈ recvd ∧ second_field recvd ≠ END_EVENT
  | _ => True

/-- Event guard: every receive delivers its record together with the
terminating NUL, and a record arrives on socket `i` only if every allocated
record bound to `i` is the one whose id, in decimal, is the record's id field
(so a `BEGIN` arrives only on a socket bound to no allocated record).  The
bytes behind the received ones are not constrained. -/
def own_socket (s : State) : Event → Prop
  | .recv i recvd _ => '\x00' ∈ recvd ∧
      ∀ j, j < MAX_CLIENTS → (s.clients j).id ≠ 0 → (s.clients j).fd = i →
        (strsep (c_str recvd)).1 = fmt_d j
  | _ => True

instance no_terminate_decidable (s : State) (e : Event) : Decidable (no_terminate s e) :=
  match e with
  | .recv _ recvd _ =>
    inferInstanceAs (Decidable ('\x00' ∈ recvd ∧ second_field recvd ≠ END_EVENT))
  | .accept _ => isTrue trivial
  | .close _ => isTrue trivial
  | .flush _ _ _ => isTrue trivial

instance own_socket_decidable (s : State) (e : Event) : Decidable (own_socket s e) :=
  match e with
  | .recv i recvd _ => inferInstanceAs (Decidable ('\x00' ∈ recvd ∧
      ∀ j, j < MAX_CLIENTS → (s.clients j).id ≠ 0 → (s.clients j).fd = i →
        (strsep (c_str recvd)).1 = fmt_d j))
  | .accept _ => isTrue trivial
  | .close _ => isTrue trivial
  | .flush _ _ _ => isTrue trivial

/-- The registry links are consistent: an `id` field is `0` or the index of its
slot, free slots have no opponent, a non-zero `awaiting` names an allocated
record without opponent, and `opponent_id` links between allocated records are
mutual. -/
def LinksOk (s : State) : Prop :=
  (∀ j, (s.clients j).id = 0 ∨ (s.clients j).id = j) ∧
  (∀ j, (s.clients j).id = 0 → (s.clients j).opponent_id = 0) ∧
  (s.awaiting ≠ 0 →
    (s.clients s.awaiting).id = s.awaiting ∧ (s.clients s.awaiting).opponent_id = 0) ∧
  (∀ A, (s.clients A).id ≠ 0 → (s.clients A).opponent_id ≠ 0 →
    (s.clients (s.clients A).opponent_id).id = (s.clients A).opponent_id ∧
    (s.clients (s.clients A).opponent_id).opponent_id = A)

/-- No two distinct allocated slots of the array hold the same descriptor. -/
def FdUnique (s : State) : Prop :=
  ∀ A B, A < MAX_CLIENTS → B < MAX_CLIENTS → (s.clients A).id ≠ 0 → (s.clients B).id ≠ 0 →
    (s.clients A).fd = (s.clients B).fd → A = B

/-! ## The write and read sections -/

/-- Source: lines 290-307, the message handed to `send` by the write section for
socket `i`: the pending buffer of the slot found by the reverse lookup, or
nothing when the section is left before `send` (no slot, or an empty buffer). -/
def flush_message (i c0 : Nat) (s : State) : Option (List Char) :=
  let c_id := lookup_by_fd s.clients i c0
  if c_id = 0 then none
  else if (s.clients c_id).response = [] then none
  else some (s.clients c_id).response

/-- What `recv(i, &buf, sizeof(buf), 0)` reports: a failure (`r_count < 0`) with
`errno` equal to `EAGAIN`/`EWOULDBLOCK` or not, an orderly shutdown
(`r_count == 0`), or received bytes `recvd` in front of the bytes `tail` left in
the array. -/
inductive RecvResult where
  | failed (would_block : Bool)
  | shutdown
  | data (recvd tail : List Char)

/-- How the read section leaves the process: still running with a state (after
`break`, `continue` or falling through to the write section), or terminated by
`exit(code)`. -/
inductive Outcome where
  | running (s : State)
  | exited (code : Nat)

/-- Source: lines 158-285, the read section for a socket `i` in `tmp_r_mask`. -/
def read_section (i : Nat) (r : RecvResult) (s : State) : Outcome :=
  match r with
  | .failed true => .running s
  | .failed false => .exited 1
  | .shutdown => .running (process_close i s)
  | .data recvd tail => .running (process_record i recvd tail s)

/-- A registry in which every id of `1 .. MAX_CLIENTS - 1` is allocated (every
record bound to socket 4) and nobody is waiting. -/
def full_registry : State :=
  { clients := fun j =>
      if 1 ≤ j ∧ j < MAX_CLIENTS then { empty_client_t with id := j, fd := 4 }
      else empty_client_t,
    awaiting := 0, r_mask := FD_ZERO, w_mask := FD_ZERO }

/-- Every `id` field is `0` or the index of its slot, and only slots of
`1 .. MAX_CLIENTS - 1` are allocated. -/
def IdsOk (s : State) : Prop :=
  ∀ j, (s.clients j).id = 0 ∨ ((s.clients j).id = j ∧ 1 ≤ j ∧ j < MAX_CLIENTS)

end Chess

/-! ## Facts about the C library models -/

set_option maxRecDepth 100000

namespace Chess

theorem isdigit_ne_colon {c : Char} (h : isdigit c = true) : c ≠ ':' := by
  rintro rfl
  revert h
  decide

theorem isdigit_ne_nul {c : Char} (h : isdigit c = true) : c ≠ '\x00' := by
  rintro rfl
  revert h
  decide

theorem c_str_digits_colon (ds p : List Char) (h : ∀ c ∈ ds, isdigit c = true) :
    c_str (ds ++ ':' :: p) = ds ++ ':' :: c_str p := by
  induction ds with
  | nil => simp [c_str, List.takeWhile]
  | cons d ds ih =>
    have hd : d ≠ '\x00' := isdigit_ne_nul (h d (List.mem_cons_self _ _))
    have ih2 := ih (fun c hc => h c (List.mem_cons_of_mem _ hc))
    simp only [c_str] at ih2 ⊢
    rw [List.cons_append, List.takeWhile_cons, ih2]
    simp [hd]

theorem strsep_digits_colon (ds q : List Char) (h : ∀ c ∈ ds, isdigit c = true) :
    strsep (ds ++ ':' :: q) = (ds, some q) := by
  induction ds with
  | nil => simp [strsep]
  | cons d ds ih =>
    have hd : d ≠ ':' := isdigit_ne_colon (h d (List.mem_cons_self _ _))
    have ih2 := ih (fun c hc => h c (List.mem_cons_of_mem _ hc))
    simp [strsep, hd, ih2]

theorem strsep_fst_eq_takeWhile (p : List Char) :
    (strsep p).1 = p.takeWhile (fun c => c != ':') := by
  induction p with
  | nil => simp [strsep]
  | cons c cs ih =>
    by_cases hc : c = ':'
    · simp [strsep, hc]
    · rw [List.takeWhile_cons]
      simp [strsep, hc, ih]

theorem strsep_fst_of_no_colon (p : List Char) (h : ':' ∉ p) : (strsep p).1 = p := by
  induction p with
  | nil => simp [strsep]
  | cons c cs ih =>
    have hc : c ≠ ':' := fun e => h (e ▸ List.mem_cons_self _ _)
    have hcs : ':' ∉ cs := fun e => h (List.mem_cons_of_mem _ e)
    simp [strsep, hc, ih hcs]

theorem c_str_of_no_nul (p : List Char) (h : '\x00' ∉ p) : c_str p = p := by
  induction p with
  | nil => simp [c_str]
  | cons c cs ih =>
    have hc : c ≠ '\x00' := fun e => h (e ▸ List.mem_cons_self _ _)
    have hcs : '\x00' ∉ cs := fun e => h (List.mem_cons_of_mem _ e)
    have ih2 := ih hcs
    simp only [c_str] at ih2 ⊢
    rw [List.takeWhile_cons, ih2]
    simp [hc]

theorem fmt_d_digits : ∀ A, A < 100 → ∀ c ∈ fmt_d A, isdigit c = true := by
  decide

theorem strtol_fmt_d : ∀ A, A < 100 → strtol (fmt_d A) = ((A : Int), []) := by
  decide

theorem c_str_append_of_mem (a b : List Char) (h : '\x00' ∈ a) :
    c_str (a ++ b) = c_str a := by
  induction a with
  | nil => exact absurd h (List.not_mem_nil _)
  | cons c cs ih =>
    simp only [c_str] at ih ⊢
    rw [List.cons_append, List.takeWhile_cons, List.takeWhile_cons]
    by_cases hc : c = '\x00'
    · simp [hc]
    · have hcs : '\x00' ∈ cs := by
        rcases List.mem_cons.mp h with e | e
        · exact absurd e.symm hc
        · exact e
      simp [hc, ih hcs]

theorem c_str_terminated (p x : List Char) (h : '\x00' ∉ p) :
    c_str (p ++ '\x00' :: x) = p := by
  induction p with
  | nil => simp [c_str]
  | cons c cs ih =>
    have hc : c ≠ '\x00' := fun e => h (e ▸ List.mem_cons_self _ _)
    have hcs : '\x00' ∉ cs := fun e => h (List.mem_cons_of_mem _ e)
    have ih2 := ih hcs
    simp only [c_str] at ih2 ⊢
    rw [List.cons_append, List.takeWhile_cons, ih2]
    simp [hc]

/-- When the received bytes hold a NUL, the bytes behind them do not matter. -/
theorem process_record_framed (i : Nat) (recvd tail : List Char) (s : State)
    (h : '\x00' ∈ recvd) :
    process_record i recvd tail s = process_record i recvd [] s := by
  unfold process_record
  rw [c_str_append_of_mem recvd tail h, c_str_append_of_mem recvd [] h]

/-- A receive whose bytes start with the decimal numeral of an id below
`MAX_CLIENTS` and a colon is dispatched on the field that follows the colon in
the array. -/
theorem process_record_id (s : State) (i A : Nat) (q tail : List Char)
    (hA : A < MAX_CLIENTS) :
    process_record i (fmt_d A ++ ':' :: q) tail s =
      if (strsep (c_str (q ++ tail))).1 = END_EVENT then handle_end i A s
      else if (strsep (c_str (q ++ tail))).1 = RECONNECT_EVENT then handle_reconnect i A s
      else handle_move i A (strsep (c_str (q ++ tail))).1 s := by
  have happ : (fmt_d A ++ ':' :: q) ++ tail = fmt_d A ++ ':' :: (q ++ tail) := by simp
  generalize q ++ tail = p at happ
  have hd := fmt_d_digits A hA
  have hmsg := c_str_digits_colon (fmt_d A) p hd
  have hsep := strsep_digits_colon (fmt_d A) (c_str p) hd
  have hne : fmt_d A ++ ':' :: c_str p ≠ BEGIN_EVENT := by
    intro e
    have h1 : has_colon (fmt_d A ++ ':' :: c_str p) = true := by simp [has_colon]
    rw [e] at h1
    revert h1
    decide
  have hcol : has_colon (fmt_d A ++ ':' :: c_str p) = true := by simp [has_colon]
  have hmod : A % 4294967296 = A := Nat.mod_eq_of_lt (by unfold MAX_CLIENTS at hA; omega)
  have h0 : ¬ ((A : Int) < 0) := by omega
  have hge : ¬ (MAX_CLIENTS ≤ A) := Nat.not_le.mpr hA
  unfold process_record
  simp only [happ, hmsg, hsep, strtol_fmt_d A hA, hne, hcol, if_false]
  simp [hmod, h0, hge]

/-! ## The allocation scan -/

theorem scan_free_spec (cl : Nat → client_t) : ∀ n j, 1 ≤ j →
    (scan_free cl n j = 0 ∧ ∀ k, j ≤ k → k < j + n → (cl k).id ≠ 0) ∨
    (j ≤ scan_free cl n j ∧ scan_free cl n j < j + n ∧ (cl (scan_free cl n j)).id = 0 ∧
      ∀ k, j ≤ k → k < scan_free cl n j → (cl k).id ≠ 0) := by
  intro n
  induction n with
  | zero =>
    intro j _
    left
    refine ⟨rfl, ?_⟩
    intro k h1 h2
    omega
  | succ n ih =>
    intro j hj
    unfold scan_free
    by_cases h : (cl j).id = 0
    · right
      rw [if_pos h]
      refine ⟨le_refl _, by omega, h, ?_⟩
      intro k h1 h2
      omega
    · rw [if_neg h]
      rcases ih (j + 1) (by omega) with ⟨h0, hall⟩ | ⟨h1, h2, h3, h4⟩
      · left
        refine ⟨h0, ?_⟩
        intro k hk1 hk2
        by_cases hkj : k = j
        · rw [hkj]; exact h
        · exact hall k (by omega) (by omega)
      · right
        refine ⟨by omega, by omega, h3, ?_⟩
        intro k hk1 hk2
        by_cases hkj : k = j
        · rw [hkj]; exact h
        · exact h4 k (by omega) hk2

theorem first_free_spec (cl : Nat → client_t) :
    (first_free cl = 0 ∧ ∀ k, 1 ≤ k → k < MAX_CLIENTS → (cl k).id ≠ 0) ∨
    LowestFree cl (first_free cl) := by
  unfold first_free LowestFree
  rcases scan_free_spec cl (MAX_CLIENTS - 1) 1 (le_refl _) with ⟨h0, hall⟩ | ⟨h1, h2, h3, h4⟩
  · left
    refine ⟨h0, ?_⟩
    intro k hk1 hk2
    exact hall k hk1 (by unfold MAX_CLIENTS at hk2 ⊢; omega)
  · right
    exact ⟨h1, by unfold MAX_CLIENTS at h2 ⊢; omega, h3, h4⟩

theorem first_free_eq_of_lowest (cl : Nat → client_t) (c : Nat) (h : LowestFree cl c) :
    first_free cl = c := by
  obtain ⟨h1, h2, h3, h4⟩ := h
  rcases first_free_spec cl with ⟨_, hall⟩ | ⟨g1, g2, g3, g4⟩
  · exact absurd h3 (hall c h1 h2)
  · rcases Nat.lt_trichotomy (first_free cl) c with hlt | heq | hgt
    · exact absurd g3 (h4 _ g1 hlt)
    · exact heq
    · exact absurd h3 (g4 _ h1 hgt)

theorem lowestFree_exists (cl : Nat → client_t) (a : Nat) (h1 : 1 ≤ a) (h2 : a < MAX_CLIENTS)
    (h3 : (cl a).id = 0) : LowestFree cl (first_free cl) := by
  rcases first_free_spec cl with ⟨_, hall⟩ | h
  · exact absurd h3 (hall a h1 h2)
  · exact h

theorem handshake_response_eq : ∀ c, c < 100 → ∀ col ∈ [WHITE_COLOR, BLACK_COLOR],
    handshake_response c (some col) = fmt_d c ++ ':' :: col := by
  decide

/-! ## The handshake -/

theorem process_record_begin (i : Nat) (rest tail : List Char) (s : State) :
    process_record i (BEGIN_EVENT ++ '\x00' :: rest) tail s = handle_begin i s := by
  have h0 : '\x00' ∉ BEGIN_EVENT := by decide
  have h : c_str ((BEGIN_EVENT ++ '\x00' :: rest) ++ tail) = BEGIN_EVENT := by
    rw [List.append_assoc, List.cons_append]
    exact c_str_terminated BEGIN_EVENT _ h0
  unfold process_record
  dsimp only
  rw [if_pos h]

theorem strtol_begin (x : List Char) :
    (strtol ('B' :: x)).2 = 'B' :: x := by
  have h1 : isspace 'B' = false := by decide
  have h2 : isdigit 'B' = false := by decide
  unfold strtol
  simp [List.dropWhile_cons, List.takeWhile_cons, h1, h2]

theorem strsep_begin (x : List Char) :
    ∃ y, (strsep ('B' :: x)).1 = 'B' :: y := by
  refine ⟨(strsep x).1, ?_⟩
  have h : ('B' : Char) ≠ ':' := by decide
  simp [strsep, h]

/-- Whatever bytes follow them in the array, the received bytes `BEGIN` are either
taken as the handshake or change nothing. -/
theorem process_record_begin_cases (i : Nat) (tail : List Char) (s : State) :
    process_record i BEGIN_EVENT tail s = s ∨
    process_record i BEGIN_EVENT tail s = handle_begin i s := by
  have happ : BEGIN_EVENT ++ tail = 'B' :: (['E', 'G', 'I', 'N'] ++ tail) := rfl
  have hc : c_str ('B' :: (['E', 'G', 'I', 'N'] ++ tail))
      = 'B' :: c_str (['E', 'G', 'I', 'N'] ++ tail) := by
    simp [c_str, List.takeWhile_cons]
  obtain ⟨y, hy⟩ := strsep_begin (c_str (['E', 'G', 'I', 'N'] ++ tail))
  unfold process_record
  rw [happ, hc]
  dsimp only
  split_ifs with h1 h2 h3 h4 h5 h6
  · right; rfl
  · left; rfl
  · left; rfl
  · left; rfl
  · exfalso
    apply h3
    left
    rw [hy, strtol_begin]
    simp
  · exfalso
    apply h3
    left
    rw [hy, strtol_begin]
    simp
  · exfalso
    apply h3
    left
    rw [hy, strtol_begin]
    simp

theorem handle_begin_waiting (s : State) (i c : Nat) (haw : s.awaiting = 0)
    (hc : LowestFree s.clients c) :
    handle_begin i s =
      { s with
        clients := Function.update s.clients c
          { s.clients c with id := c, fd := i, color := some WHITE_COLOR,
                             response := fmt_d c ++ ':' :: WHITE_COLOR },
        awaiting := c } := by
  have hff := first_free_eq_of_lowest s.clients c hc
  have hc0 : c ≠ 0 := by have := hc.1; omega
  have hresp := handshake_response_eq c hc.2.1 WHITE_COLOR (by simp)
  unfold handle_begin
  simp [hff, hc0, haw, set_fd, set_id, set_color, set_response, hresp]

theorem handle_begin_pairing (s : State) (i c w : Nat) (hw : s.awaiting = w) (haw : w ≠ 0)
    (hc : LowestFree s.clients c) (hne : w ≠ c) :
    handle_begin i s =
      { s with
        clients := Function.update
          (Function.update s.clients c
            { s.clients c with id := c, fd := i, color := some BLACK_COLOR,
                               opponent_id := w,
                               response := fmt_d c ++ ':' :: BLACK_COLOR })
          w { s.clients w with opponent_id := c },
        awaiting := 0,
        w_mask := FD_SET (s.clients w).fd (FD_SET i s.w_mask) } := by
  subst hw
  have hff := first_free_eq_of_lowest s.clients c hc
  have hc0 : c ≠ 0 := by have := hc.1; omega
  have hresp := handshake_response_eq c hc.2.1 BLACK_COLOR (by simp)
  have hne2 : c ≠ s.awaiting := fun e => hne e.symm
  unfold handle_begin
  simp only [hff, if_neg hc0, if_neg haw]
  congr 1
  · funext k
    simp only [set_fd, set_id, set_color, set_response, set_opponent_id, Function.update_apply]
    by_cases h1 : k = s.awaiting
    · have h2 : ¬ k = c := fun e => hne (h1.symm.trans e)
      simp [h1, hne]
    · by_cases h2 : k = c
      · simp [h2, hne, hne2, hresp]
      · simp [h1, h2]
  · simp only [set_fd, set_id, set_color, set_response, set_opponent_id, Function.update_apply]
    simp [hne, hne2]

/-! ## C1: two handshakes pair the peers -/

/-- C1 (failing input): socket 4 first delivers the 8 bytes `x\0abcdef`, which
are dropped and leave the initial registry unchanged; line 161 then clears one
byte, so the next receive of the 5 bytes `BEGIN` on socket 4 is followed in the
array by `def`.  The code parses `BEGINdef`: nothing is allocated and `awaiting`
stays 0; the following `BEGIN` on socket 5 (clean array) is then given id 1 as
WHITE and waits, so the two peers are not paired and socket 4 gets no
acknowledgment. -/
theorem C1_stale_bytes_hide_begin :
    stale_tail ['x', '\x00', 'a', 'b', 'c', 'd', 'e', 'f', '\x00'] 5
      = ['d', 'e', 'f', '\x00'] ∧
    (run State.init [.recv 4 ['x', '\x00', 'a', 'b', 'c', 'd', 'e', 'f'] clean_tail]).awaiting
      = 0 ∧
    ((run State.init [.recv 4 ['x', '\x00', 'a', 'b', 'c', 'd', 'e', 'f'] clean_tail]).clients
      1) = empty_client_t ∧
    ((run State.init [.recv 4 ['x', '\x00', 'a', 'b', 'c', 'd', 'e', 'f'] clean_tail]).clients
      2) = empty_client_t ∧
    ((run State.init [.recv 4 ['x', '\x00', 'a', 'b', 'c', 'd', 'e', 'f'] clean_tail,
      .recv 4 BEGIN_EVENT ['d', 'e', 'f', '\x00']]).clients 1) = empty_client_t ∧
    (run State.init [.recv 4 ['x', '\x00', 'a', 'b', 'c', 'd', 'e', 'f'] clean_tail,
      .recv 4 BEGIN_EVENT ['d', 'e', 'f', '\x00']]).awaiting = 0 ∧
    ((run State.init [.recv 4 ['x', '\x00', 'a', 'b', 'c', 'd', 'e', 'f'] clean_tail,
      .recv 4 BEGIN_EVENT ['d', 'e', 'f', '\x00'], .recv 5 BEGIN_EVENT clean_tail]).clients 1)
      = { id := 1, opponent_id := 0, color := some WHITE_COLOR, result := 0, fd := 5,
          response := ['1', ':', 'W', 'H', 'I', 'T', 'E'], sent_ctr := 0 } ∧
    ((run State.init [.recv 4 ['x', '\x00', 'a', 'b', 'c', 'd', 'e', 'f'] clean_tail,
      .recv 4 BEGIN_EVENT ['d', 'e', 'f', '\x00'], .recv 5 BEGIN_EVENT clean_tail]).clients 2)
      = empty_client_t ∧
    FD_ISSET 4 (run State.init [.recv 4 ['x', '\x00', 'a', 'b', 'c', 'd', 'e', 'f'] clean_tail,
      .recv 4 BEGIN_EVENT ['d', 'e', 'f', '\x00'], .recv 5 BEGIN_EVENT clean_tail]).w_mask
      = false := by
  decide

/-- Handshakes received with their terminating NUL (behaviour behind C1): from a
state with `awaiting = 0` whose free slots hold default values and which has two
free ids in `1 .. 99`, the bytes `BEGIN\0` on `s1`, whatever follows them in the
array, allocate the lowest free id `id1` as WHITE with no opponent and set
`awaiting = id1`; the bytes `BEGIN\0` on `s2` then allocate a new id `id2 ≠ id1`
as BLACK, link both `opponent_id` fields, clear `awaiting`, put `s1` and `s2` in
the write set, and the pending messages are `"<id1>:WHITE"` and `"<id2>:BLACK"`. -/
theorem handshakes_pair_when_framed (s : State) (s1 s2 : Nat) (r1 u1 r2 u2 : List Char)
    (haw : s.awaiting = 0)
    (hdef : ∀ j, j < MAX_CLIENTS → (s.clients j).id = 0 → s.clients j = empty_client_t)
    (htwo : ∃ a b, a ≠ b ∧ 1 ≤ a ∧ a < MAX_CLIENTS ∧ 1 ≤ b ∧ b < MAX_CLIENTS ∧
      (s.clients a).id = 0 ∧ (s.clients b).id = 0)
    (hs : s1 ≠ s2) :
    ∃ id1 id2,
      LowestFree s.clients id1 ∧
      (process_record s1 (BEGIN_EVENT ++ '\x00' :: r1) u1 s).clients id1 =
        { id := id1, opponent_id := 0, color := some WHITE_COLOR, result := 0, fd := s1,
          response := fmt_d id1 ++ ':' :: WHITE_COLOR, sent_ctr := 0 } ∧
      (process_record s1 (BEGIN_EVENT ++ '\x00' :: r1) u1 s).awaiting = id1 ∧
      id2 ≠ id1 ∧
      LowestFree (process_record s1 (BEGIN_EVENT ++ '\x00' :: r1) u1 s).clients id2 ∧
      (process_record s2 (BEGIN_EVENT ++ '\x00' :: r2) u2
        (process_record s1 (BEGIN_EVENT ++ '\x00' :: r1) u1 s)).clients id1 =
        { id := id1, opponent_id := id2, color := some WHITE_COLOR, result := 0, fd := s1,
          response := fmt_d id1 ++ ':' :: WHITE_COLOR, sent_ctr := 0 } ∧
      (process_record s2 (BEGIN_EVENT ++ '\x00' :: r2) u2
        (process_record s1 (BEGIN_EVENT ++ '\x00' :: r1) u1 s)).clients id2 =
        { id := id2, opponent_id := id1, color := some BLACK_COLOR, result := 0, fd := s2,
          response := fmt_d id2 ++ ':' :: BLACK_COLOR, sent_ctr := 0 } ∧
      (process_record s2 (BEGIN_EVENT ++ '\x00' :: r2) u2
        (process_record s1 (BEGIN_EVENT ++ '\x00' :: r1) u1 s)).awaiting = 0 ∧
      FD_ISSET s1 (process_record s2 (BEGIN_EVENT ++ '\x00' :: r2) u2
        (process_record s1 (BEGIN_EVENT ++ '\x00' :: r1) u1 s)).w_mask
        = true ∧
      FD_ISSET s2 (process_record s2 (BEGIN_EVENT ++ '\x00' :: r2) u2
        (process_record s1 (BEGIN_EVENT ++ '\x00' :: r1) u1 s)).w_mask
        = true := by
  obtain ⟨a, b, hab, ha1, ha2, hb1, hb2, ha3, hb3⟩ := htwo
  have _ := hs
  -- the first handshake
  have h1 : LowestFree s.clients (first_free s.clients) :=
    lowestFree_exists s.clients a ha1 ha2 ha3
  generalize first_free s.clients = id1 at h1
  have hid1 : id1 ≠ 0 := by have := h1.1; omega
  have he1 : s.clients id1 = empty_client_t := hdef id1 h1.2.1 h1.2.2.1
  have ht1 := handle_begin_waiting s s1 id1 haw h1
  rw [process_record_begin s1 r1 u1 s, ht1]
  -- a slot that is still free after it
  have hfree : ∃ x, 1 ≤ x ∧ x < MAX_CLIENTS ∧ x ≠ id1 ∧ (s.clients x).id = 0 := by
    by_cases hx : a = id1
    · exact ⟨b, hb1, hb2, fun e => hab (hx.trans e.symm), hb3⟩
    · exact ⟨a, ha1, ha2, hx, ha3⟩
  obtain ⟨x, hx1, hx2, hx3, hx4⟩ := hfree
  generalize ht : ({ s with
        clients := Function.update s.clients id1
          { s.clients id1 with id := id1, fd := s1, color := some WHITE_COLOR,
                               response := fmt_d id1 ++ ':' :: WHITE_COLOR },
        awaiting := id1 } : State) = t
  have htc : t.clients = Function.update s.clients id1
          { s.clients id1 with id := id1, fd := s1, color := some WHITE_COLOR,
                               response := fmt_d id1 ++ ':' :: WHITE_COLOR } := by
    rw [← ht]
  have hta : t.awaiting = id1 := by rw [← ht]
  have htw : t.w_mask = s.w_mask := by rw [← ht]
  have htx : (t.clients x).id = 0 := by
    rw [htc, Function.update_noteq hx3]; exact hx4
  have h2 : LowestFree t.clients (first_free t.clients) :=
    lowestFree_exists t.clients x hx1 hx2 htx
  generalize first_free t.clients = id2 at h2
  have ht1id : (t.clients id1).id = id1 := by rw [htc, Function.update_same]
  have hne : id2 ≠ id1 := by
    intro e
    have := h2.2.2.1
    rw [e, ht1id] at this
    exact hid1 this
  have he2 : s.clients id2 = empty_client_t := by
    have := h2.2.2.1
    rw [htc, Function.update_noteq hne] at this
    exact hdef id2 h2.2.1 this
  have ht2 := handle_begin_pairing t s2 id2 id1 hta hid1 h2 (fun e => hne e.symm)
  refine ⟨id1, id2, h1, ?_, hta, hne, h2, ?_, ?_, ?_, ?_, ?_⟩
  · rw [htc, Function.update_same, he1]; rfl
  · rw [process_record_begin s2 r2 u2 t, ht2]
    simp only [Function.update_same]
    rw [htc, Function.update_same, he1]; rfl
  · rw [process_record_begin s2 r2 u2 t, ht2]
    simp only []
    rw [Function.update_noteq hne, Function.update_same, htc, Function.update_noteq hne, he2]
    rfl
  · rw [process_record_begin s2 r2 u2 t, ht2]
  · rw [process_record_begin s2 r2 u2 t, ht2]
    simp only [FD_ISSET, FD_SET]
    rw [htc, Function.update_same, Function.update_same]
  · rw [process_record_begin s2 r2 u2 t, ht2]
    simp only [FD_ISSET, FD_SET, Function.update_apply]
    simp

/-- The initial registry and the sockets 4 and 5, with a dirty array behind the
first handshake. -/
theorem handshakes_pair_when_framed_witness :
    ∃ id1 id2,
      LowestFree State.init.clients id1 ∧
      (process_record 4 (BEGIN_EVENT ++ '\x00' :: []) ['d', 'e', 'f'] State.init).clients id1 =
        { id := id1, opponent_id := 0, color := some WHITE_COLOR, result := 0, fd := 4,
          response := fmt_d id1 ++ ':' :: WHITE_COLOR, sent_ctr := 0 } ∧
      (process_record 4 (BEGIN_EVENT ++ '\x00' :: []) ['d', 'e', 'f'] State.init).awaiting = id1 ∧
      id2 ≠ id1 ∧
      LowestFree (process_record 4 (BEGIN_EVENT ++ '\x00' :: []) ['d', 'e', 'f'] State.init).clients id2 ∧
      (process_record 5 (BEGIN_EVENT ++ '\x00' :: []) clean_tail
        (process_record 4 (BEGIN_EVENT ++ '\x00' :: []) ['d', 'e', 'f'] State.init)).clients id1 =
        { id := id1, opponent_id := id2, color := some WHITE_COLOR, result := 0, fd := 4,
          response := fmt_d id1 ++ ':' :: WHITE_COLOR, sent_ctr := 0 } ∧
      (process_record 5 (BEGIN_EVENT ++ '\x00' :: []) clean_tail
        (process_record 4 (BEGIN_EVENT ++ '\x00' :: []) ['d', 'e', 'f'] State.init)).clients id2 =
        { id := id2, opponent_id := id1, color := some BLACK_COLOR, result := 0, fd := 5,
          response := fmt_d id2 ++ ':' :: BLACK_COLOR, sent_ctr := 0 } ∧
      (process_record 5 (BEGIN_EVENT ++ '\x00' :: []) clean_tail
        (process_record 4 (BEGIN_EVENT ++ '\x00' :: []) ['d', 'e', 'f'] State.init)).awaiting = 0 ∧
      FD_ISSET 4 (process_record 5 (BEGIN_EVENT ++ '\x00' :: []) clean_tail
        (process_record 4 (BEGIN_EVENT ++ '\x00' :: []) ['d', 'e', 'f'] State.init)).w_mask
        = true ∧
      FD_ISSET 5 (process_record 5 (BEGIN_EVENT ++ '\x00' :: []) clean_tail
        (process_record 4 (BEGIN_EVENT ++ '\x00' :: []) ['d', 'e', 'f'] State.init)).w_mask
        = true :=
  handshakes_pair_when_framed State.init 4 5 [] ['d', 'e', 'f'] [] clean_tail rfl (fun _ _ _ => rfl)
    ⟨1, 2, by decide, by decide, by decide, by decide, by decide, rfl, rfl⟩ (by decide)

/-! ## Field effects of the handlers -/

theorem update_field {α : Type} (f : client_t → α) (cl : Nat → client_t) (j : Nat)
    (r : client_t) (k : Nat) (h : f r = f (cl j)) :
    f (Function.update cl j r k) = f (cl k) := by
  by_cases hk : k = j
  · subst hk
    rw [Function.update_same, h]
  · rw [Function.update_noteq hk]

@[simp]
theorem set_id_id (cl : Nat → client_t) (j : Nat) (v : Nat) (k : Nat) :
    (set_id cl j v k).id = if k = j then v else (cl k).id := by
  unfold set_id
  by_cases h : k = j
  · subst h; simp
  · simp [Function.update_noteq h, h]

@[simp]
theorem set_id_opponent_id (cl : Nat → client_t) (j : Nat) (v : Nat) (k : Nat) :
    (set_id cl j v k).opponent_id = (cl k).opponent_id := by
  unfold set_id
  exact update_field client_t.opponent_id cl j _ k rfl

@[simp]
theorem set_id_color (cl : Nat → client_t) (j : Nat) (v : Nat) (k : Nat) :
    (set_id cl j v k).color = (cl k).color := by
  unfold set_id
  exact update_field client_t.color cl j _ k rfl

@[simp]
theorem set_id_result (cl : Nat → client_t) (j : Nat) (v : Nat) (k : Nat) :
    (set_id cl j v k).result = (cl k).result := by
  unfold set_id
  exact update_field client_t.result cl j _ k rfl

@[simp]
theorem set_id_fd (cl : Nat → client_t) (j : Nat) (v : Nat) (k : Nat) :
    (set_id cl j v k).fd = (cl k).fd := by
  unfold set_id
  exact update_field client_t.fd cl j _ k rfl

@[simp]
theorem set_id_response (cl : Nat → client_t) (j : Nat) (v : Nat) (k : Nat) :
    (set_id cl j v k).response = (cl k).response := by
  unfold set_id
  exact update_field client_t.response cl j _ k rfl

@[simp]
theorem set_id_sent_ctr (cl : Nat → client_t) (j : Nat) (v : Nat) (k : Nat) :
    (set_id cl j v k).sent_ctr = (cl k).sent_ctr := by
  unfold set_id
  exact update_field client_t.sent_ctr cl j _ k rfl

theorem set_id_of_ne (cl : Nat → client_t) (j : Nat) (v : Nat) (k : Nat) (h : k ≠ j) :
    set_id cl j v k = cl k := by
  unfold set_id
  exact Function.update_noteq h _ _

@[simp]
theorem set_opponent_id_id (cl : Nat → client_t) (j : Nat) (v : Nat) (k : Nat) :
    (set_opponent_id cl j v k).id = (cl k).id := by
  unfold set_opponent_id
  exact update_field client_t.id cl j _ k rfl

@[simp]
theorem set_opponent_id_opponent_id (cl : Nat → client_t) (j : Nat) (v : Nat) (k : Nat) :
    (set_opponent_id cl j v k).opponent_id = if k = j then v else (cl k).opponent_id := by
  unfold set_opponent_id
  by_cases h : k = j
  · subst h; simp
  · simp [Function.update_noteq h, h]

@[simp]
theorem set_opponent_id_color (cl : Nat → client_t) (j : Nat) (v : Nat) (k : Nat) :
    (set_opponent_id cl j v k).color = (cl k).color := by
  unfold set_opponent_id
  exact update_field client_t.color cl j _ k rfl

@[simp]
theorem set_opponent_id_result (cl : Nat → client_t) (j : Nat) (v : Nat) (k : Nat) :
    (set_opponent_id cl j v k).result = (cl k).result := by
  unfold set_opponent_id
  exact update_field client_t.result cl j _ k rfl

@[simp]
theorem set_opponent_id_fd (cl : Nat → client_t) (j : Nat) (v : Nat) (k : Nat) :
    (set_opponent_id cl j v k).fd = (cl k).fd := by
  unfold set_opponent_id
  exact update_field client_t.fd cl j _ k rfl

@[simp]
theorem set_opponent_id_response (cl : Nat → client_t) (j : Nat) (v : Nat) (k : Nat) :
    (set_opponent_id cl j v k).response = (cl k).response := by
  unfold set_opponent_id
  exact update_field client_t.response cl j _ k rfl

@[simp]
theorem set_opponent_id_sent_ctr (cl : Nat → client_t) (j : Nat) (v : Nat) (k : Nat) :
    (set_opponent_id cl j v k).sent_ctr = (cl k).sent_ctr := by
  unfold set_opponent_id
  exact update_field client_t.sent_ctr cl j _ k rfl

theorem set_opponent_id_of_ne (cl : Nat → client_t) (j : Nat) (v : Nat) (k : Nat) (h : k ≠ j) :
    set_opponent_id cl j v k = cl k := by
  unfold set_opponent_id
  exact Function.update_noteq h _ _

@[simp]
theorem set_color_id (cl : Nat → client_t) (j : Nat) (v : List Char) (k : Nat) :
    (set_color cl j v k).id = (cl k).id := by
  unfold set_color
  exact update_field client_t.id cl j _ k rfl

@[simp]
theorem set_color_opponent_id (cl : Nat → client_t) (j : Nat) (v : List Char) (k : Nat) :
    (set_color cl j v k).opponent_id = (cl k).opponent_id := by
  unfold set_color
  exact update_field client_t.opponent_id cl j _ k rfl

@[simp]
theorem set_color_color (cl : Nat → client_t) (j : Nat) (v : List Char) (k : Nat) :
    (set_color cl j v k).color = if k = j then some v else (cl k).color := by
  unfold set_color
  by_cases h : k = j
  · subst h; simp
  · simp [Function.update_noteq h, h]

@[simp]
theorem set_color_result (cl : Nat → client_t) (j : Nat) (v : List Char) (k : Nat) :
    (set_color cl j v k).result = (cl k).result := by
  unfold set_color
  exact update_field client_t.result cl j _ k rfl

@[simp]
theorem set_color_fd (cl : Nat → client_t) (j : Nat) (v : List Char) (k : Nat) :
    (set_color cl j v k).fd = (cl k).fd := by
  unfold set_color
  exact update_field client_t.fd cl j _ k rfl

@[simp]
theorem set_color_response (cl : Nat → client_t) (j : Nat) (v : List Char) (k : Nat) :
    (set_color cl j v k).response = (cl k).response := by
  unfold set_color
  exact update_field client_t.response cl j _ k rfl

@[simp]
theorem set_color_sent_ctr (cl : Nat → client_t) (j : Nat) (v : List Char) (k : Nat) :
    (set_color cl j v k).sent_ctr = (cl k).sent_ctr := by
  unfold set_color
  exact update_field client_t.sent_ctr cl j _ k rfl

theorem set_color_of_ne (cl : Nat → client_t) (j : Nat) (v : List Char) (k : Nat) (h : k ≠ j) :
    set_color cl j v k = cl k := by
  unfold set_color
  exact Function.update_noteq h _ _

@[simp]
theorem set_fd_id (cl : Nat → client_t) (j : Nat) (v : Nat) (k : Nat) :
    (set_fd cl j v k).id = (cl k).id := by
  unfold set_fd
  exact update_field client_t.id cl j _ k rfl

@[simp]
theorem set_fd_opponent_id (cl : Nat → client_t) (j : Nat) (v : Nat) (k : Nat) :
    (set_fd cl j v k).opponent_id = (cl k).opponent_id := by
  unfold set_fd
  exact update_field client_t.opponent_id cl j _ k rfl

@[simp]
theorem set_fd_color (cl : Nat → client_t) (j : Nat) (v : Nat) (k : Nat) :
    (set_fd cl j v k).color = (cl k).color := by
  unfold set_fd
  exact update_field client_t.color cl j _ k rfl

@[simp]
theorem set_fd_result (cl : Nat → client_t) (j : Nat) (v : Nat) (k : Nat) :
    (set_fd cl j v k).result = (cl k).result := by
  unfold set_fd
  exact update_field client_t.result cl j _ k rfl

@[simp]
theorem set_fd_fd (cl : Nat → client_t) (j : Nat) (v : Nat) (k : Nat) :
    (set_fd cl j v k).fd = if k = j then v else (cl k).fd := by
  unfold set_fd
  by_cases h : k = j
  · subst h; simp
  · simp [Function.update_noteq h, h]

@[simp]
theorem set_fd_response (cl : Nat → client_t) (j : Nat) (v : Nat) (k : Nat) :
    (set_fd cl j v k).response = (cl k).response := by
  unfold set_fd
  exact update_field client_t.response cl j _ k rfl

@[simp]
theorem set_fd_sent_ctr (cl : Nat → client_t) (j : Nat) (v : Nat) (k : Nat) :
    (set_fd cl j v k).sent_ctr = (cl k).sent_ctr := by
  unfold set_fd
  exact update_field client_t.sent_ctr cl j _ k rfl

theorem set_fd_of_ne (cl : Nat → client_t) (j : Nat) (v : Nat) (k : Nat) (h : k ≠ j) :
    set_fd cl j v k = cl k := by
  unfold set_fd
  exact Function.update_noteq h _ _

@[simp]
theorem set_response_id (cl : Nat → client_t) (j : Nat) (v : List Char) (k : Nat) :
    (set_response cl j v k).id = (cl k).id := by
  unfold set_response
  exact update_field client_t.id cl j _ k rfl

@[simp]
theorem set_response_opponent_id (cl : Nat → client_t) (j : Nat) (v : List Char) (k : Nat) :
    (set_response cl j v k).opponent_id = (cl k).opponent_id := by
  unfold set_response
  exact update_field client_t.opponent_id cl j _ k rfl

@[simp]
theorem set_response_color (cl : Nat → client_t) (j : Nat) (v : List Char) (k : Nat) :
    (set_response cl j v k).color = (cl k).color := by
  unfold set_response
  exact update_field client_t.color cl j _ k rfl

@[simp]
theorem set_response_result (cl : Nat → client_t) (j : Nat) (v : List Char) (k : Nat) :
    (set_response cl j v k).result = (cl k).result := by
  unfold set_response
  exact update_field client_t.result cl j _ k rfl

@[simp]
theorem set_response_fd (cl : Nat → client_t) (j : Nat) (v : List Char) (k : Nat) :
    (set_response cl j v k).fd = (cl k).fd := by
  unfold set_response
  exact update_field client_t.fd cl j _ k rfl

@[simp]
theorem set_response_response (cl : Nat → client_t) (j : Nat) (v : List Char) (k : Nat) :
    (set_response cl j v k).response = if k = j then v else (cl k).response := by
  unfold set_response
  by_cases h : k = j
  · subst h; simp
  · simp [Function.update_noteq h, h]

@[simp]
theorem set_response_sent_ctr (cl : Nat → client_t) (j : Nat) (v : List Char) (k : Nat) :
    (set_response cl j v k).sent_ctr = (cl k).sent_ctr := by
  unfold set_response
  exact update_field client_t.sent_ctr cl j _ k rfl

theorem set_response_of_ne (cl : Nat → client_t) (j : Nat) (v : List Char) (k : Nat) (h : k ≠ j) :
    set_response cl j v k = cl k := by
  unfold set_response
  exact Function.update_noteq h _ _

@[simp]
theorem incr_sent_ctr_id (cl : Nat → client_t) (j k : Nat) :
    (incr_sent_ctr cl j k).id = (cl k).id := by
  unfold incr_sent_ctr
  exact update_field client_t.id cl j _ k rfl

@[simp]
theorem incr_sent_ctr_opponent_id (cl : Nat → client_t) (j k : Nat) :
    (incr_sent_ctr cl j k).opponent_id = (cl k).opponent_id := by
  unfold incr_sent_ctr
  exact update_field client_t.opponent_id cl j _ k rfl

@[simp]
theorem incr_sent_ctr_color (cl : Nat → client_t) (j k : Nat) :
    (incr_sent_ctr cl j k).color = (cl k).color := by
  unfold incr_sent_ctr
  exact update_field client_t.color cl j _ k rfl

@[simp]
theorem incr_sent_ctr_result (cl : Nat → client_t) (j k : Nat) :
    (incr_sent_ctr cl j k).result = (cl k).result := by
  unfold incr_sent_ctr
  exact update_field client_t.result cl j _ k rfl

@[simp]
theorem incr_sent_ctr_fd (cl : Nat → client_t) (j k : Nat) :
    (incr_sent_ctr cl j k).fd = (cl k).fd := by
  unfold incr_sent_ctr
  exact update_field client_t.fd cl j _ k rfl

@[simp]
theorem incr_sent_ctr_response (cl : Nat → client_t) (j k : Nat) :
    (incr_sent_ctr cl j k).response = (cl k).response := by
  unfold incr_sent_ctr
  exact update_field client_t.response cl j _ k rfl

@[simp]
theorem incr_sent_ctr_sent_ctr (cl : Nat → client_t) (j k : Nat) :
    (incr_sent_ctr cl j k).sent_ctr = if k = j then (cl j).sent_ctr + 1 else (cl k).sent_ctr := by
  unfold incr_sent_ctr
  by_cases h : k = j
  · subst h; simp
  · simp [Function.update_noteq h, h]

theorem incr_sent_ctr_of_ne (cl : Nat → client_t) (j k : Nat) (h : k ≠ j) :
    incr_sent_ctr cl j k = cl k := by
  unfold incr_sent_ctr
  exact Function.update_noteq h _ _

theorem handle_move_response (s : State) (i A : Nat) (token : List Char) :
    ((handle_move i A token s).clients (s.clients A).opponent_id).response = token := by
  unfold handle_move
  dsimp only
  split_ifs with h <;> simp

/-! ## C2: relaying a move -/

theorem c_str_framed (p rest u : List Char) (h : '\x00' ∉ p) :
    c_str ((p ++ '\x00' :: rest) ++ u) = p := by
  rw [List.append_assoc, List.cons_append]
  exact c_str_terminated p _ h

/-- C2 (counterexample): with record 1 paired with record 2, the record `1:a:b`
carries the non-empty NUL-free payload `a:b`, which is neither `END` nor
`RECONNECT`, yet the opponent's pending buffer becomes `a`, not `a:b`: both when
the five bytes arrive in a clean array and when they arrive with their
terminating NUL in a dirty one. -/
theorem C2_payload_with_colon_truncated :
    (paired_4_5.clients 1).id = 1 ∧
    (paired_4_5.clients 1).opponent_id = 2 ∧
    (paired_4_5.clients 2).id = 2 ∧
    ['a', ':', 'b'] ≠ [] ∧
    ['a', ':', 'b'] ≠ END_EVENT ∧ ['a', ':', 'b'] ≠ RECONNECT_EVENT ∧
    '\x00' ∉ ['a', ':', 'b'] ∧
    ((process_record 4 (fmt_d 1 ++ ':' :: ['a', ':', 'b']) clean_tail
      paired_4_5).clients 2).response = ['a'] ∧
    ((process_record 4 (fmt_d 1 ++ ':' :: ['a', ':', 'b']) clean_tail
      paired_4_5).clients 2).response ≠ ['a', ':', 'b'] ∧
    ((process_record 4 (fmt_d 1 ++ ':' :: (['a', ':', 'b'] ++ '\x00' :: [])) ['d', 'e', 'f']
      paired_4_5).clients 2).response = ['a'] := by
  decide

/-- C2 (amended): for an allocated record `A` whose opponent `B` is allocated,
and a NUL-free payload `p` whose text before its first `':'` is neither `END`
nor `RECONNECT`, the record `<A>:<p>` received with its terminating NUL (and
any bytes `rest` after it), whatever bytes `u` follow the received ones in the
array, leaves the pending buffer of `B` equal to that text: the part of `p`
before its first `':'`, which is all of `p` when `p` has no `':'`. -/
theorem C2_move_relays_first_field (s : State) (i A B : Nat) (p rest u : List Char)
    (hA : A < MAX_CLIENTS) (hAid : (s.clients A).id ≠ 0)
    (hAB : (s.clients A).opponent_id = B)
    (hB : B < MAX_CLIENTS) (hBid : (s.clients B).id ≠ 0)
    (hnul : '\x00' ∉ p)
    (hE : p.takeWhile (fun c => c != ':') ≠ END_EVENT)
    (hR : p.takeWhile (fun c => c != ':') ≠ RECONNECT_EVENT) :
    ((process_record i (fmt_d A ++ ':' :: (p ++ '\x00' :: rest)) u s).clients B).response
        = p.takeWhile (fun c => c != ':') ∧
    (':' ∉ p →
      ((process_record i (fmt_d A ++ ':' :: (p ++ '\x00' :: rest)) u s).clients B).response
        = p) := by
  have _ := hAid
  have _ := hB
  have _ := hBid
  have hp : c_str ((p ++ '\x00' :: rest) ++ u) = p := c_str_framed p rest u hnul
  have htok : (strsep p).1 = p.takeWhile (fun c => c != ':') := strsep_fst_eq_takeWhile p
  have hmain :
      ((process_record i (fmt_d A ++ ':' :: (p ++ '\x00' :: rest)) u s).clients B).response
      = p.takeWhile (fun c => c != ':') := by
    rw [process_record_id s i A _ u hA, hp, htok, if_neg hE, if_neg hR, ← hAB]
    exact handle_move_response s i A _
  refine ⟨hmain, ?_⟩
  intro hc
  rw [hmain, ← htok]
  exact strsep_fst_of_no_colon p hc

/-- C2 (witness): the amended statement at the paired records 1 and 2 and the
payload `e2e4`, received as `1:e2e4\0` in front of the stale bytes `def`. -/
theorem C2_move_relays_first_field_witness :
    ((process_record 4 (fmt_d 1 ++ ':' :: (['e', '2', 'e', '4'] ++ '\x00' :: []))
        ['d', 'e', 'f'] paired_4_5).clients 2).response
      = ['e', '2', 'e', '4'].takeWhile (fun c => c != ':') ∧
    (':' ∉ ['e', '2', 'e', '4'] →
      ((process_record 4 (fmt_d 1 ++ ':' :: (['e', '2', 'e', '4'] ++ '\x00' :: []))
        ['d', 'e', 'f'] paired_4_5).clients 2).response = ['e', '2', 'e', '4']) :=
  C2_move_relays_first_field paired_4_5 4 1 2 ['e', '2', 'e', '4'] [] ['d', 'e', 'f']
    (by decide) (by decide) (by decide) (by decide) (by decide) (by decide) (by decide)
    (by decide)

/-! ## Field effects of the handshake -/

theorem handle_begin_id (s : State) (i c : Nat) (hc : LowestFree s.clients c) (k : Nat) :
    ((handle_begin i s).clients k).id = if k = c then c else (s.clients k).id := by
  have hff := first_free_eq_of_lowest s.clients c hc
  have hc0 : c ≠ 0 := by have := hc.1; omega
  unfold handle_begin
  simp only [hff, if_neg hc0]
  split_ifs <;> simp_all

theorem handle_begin_fd (s : State) (i c : Nat) (hc : LowestFree s.clients c) (k : Nat) :
    ((handle_begin i s).clients k).fd = if k = c then i else (s.clients k).fd := by
  have hff := first_free_eq_of_lowest s.clients c hc
  have hc0 : c ≠ 0 := by have := hc.1; omega
  unfold handle_begin
  simp only [hff, if_neg hc0]
  split_ifs <;> simp_all

theorem handle_begin_full (s : State) (i : Nat) (h : first_free s.clients = 0) :
    handle_begin i s = s := by
  unfold handle_begin
  simp [h]

/-! ## C6: Terminate -/

/-- C6 (failing input): in the paired game socket 4 first delivers the 8 bytes
`x\0abcdef`, which are dropped; line 161 then clears one byte, so the next
receive of the 5 bytes `1:END` is followed in the array by `def`.  The code
parses `1:ENDdef`: slot 1 is not reset, and `ENDdef` is queued for record 2. -/
theorem C6_stale_bytes_turn_terminate_into_move :
    stale_tail ['x', '\x00', 'a', 'b', 'c', 'd', 'e', 'f', '\x00'] 5
      = ['d', 'e', 'f', '\x00'] ∧
    (paired_4_5.clients 1).id = 1 ∧
    ((run paired_4_5 [.recv 4 ['x', '\x00', 'a', 'b', 'c', 'd', 'e', 'f'] clean_tail,
      .recv 4 ('1' :: ':' :: END_EVENT) ['d', 'e', 'f', '\x00']]).clients 1).id = 1 ∧
    ((run paired_4_5 [.recv 4 ['x', '\x00', 'a', 'b', 'c', 'd', 'e', 'f'] clean_tail,
      .recv 4 ('1' :: ':' :: END_EVENT) ['d', 'e', 'f', '\x00']]).clients 1)
      ≠ empty_client_t ∧
    ((run paired_4_5 [.recv 4 ['x', '\x00', 'a', 'b', 'c', 'd', 'e', 'f'] clean_tail,
      .recv 4 ('1' :: ':' :: END_EVENT) ['d', 'e', 'f', '\x00']]).clients 2).response
      = ['E', 'N', 'D', 'd', 'e', 'f'] := by
  decide

/-- Terminate received with its terminating NUL (behaviour behind C6): for an
allocated id `A` in `1 .. 99`, the bytes `<A>:END\0`, whatever follows them,
reset slot `A` to the default record and leave every other slot unchanged; if
no id below `A` is free, the scan of the next `BEGIN` returns `A` and a `BEGIN`
received with its NUL allocates slot `A` again, bound to its socket. -/
theorem terminate_releases_slot_when_framed (s : State) (i A : Nat)
    (rest u r2 u2 : List Char) (hA1 : 1 ≤ A)
    (hA : A < MAX_CLIENTS) (hid : (s.clients A).id ≠ 0) :
    (process_record i (fmt_d A ++ ':' :: (END_EVENT ++ '\x00' :: rest)) u s).clients A
      = empty_client_t ∧
    (∀ j, j ≠ A →
      (process_record i (fmt_d A ++ ':' :: (END_EVENT ++ '\x00' :: rest)) u s).clients j
        = s.clients j) ∧
    ((∀ k, 1 ≤ k → k < A → (s.clients k).id ≠ 0) →
      first_free
        (process_record i (fmt_d A ++ ':' :: (END_EVENT ++ '\x00' :: rest)) u s).clients
        = A ∧
      ∀ i2,
        ((process_record i2 (BEGIN_EVENT ++ '\x00' :: r2) u2
          (process_record i (fmt_d A ++ ':' :: (END_EVENT ++ '\x00' :: rest)) u s)).clients
            A).id = A ∧
        ((process_record i2 (BEGIN_EVENT ++ '\x00' :: r2) u2
          (process_record i (fmt_d A ++ ':' :: (END_EVENT ++ '\x00' :: rest)) u s)).clients
            A).fd = i2) := by
  have _ := hid
  have h0 : '\x00' ∉ END_EVENT := by decide
  have hp : (strsep (c_str ((END_EVENT ++ '\x00' :: rest) ++ u))).1 = END_EVENT := by
    rw [c_str_framed END_EVENT rest u h0]
    decide
  have hrec : process_record i (fmt_d A ++ ':' :: (END_EVENT ++ '\x00' :: rest)) u s
      = handle_end i A s := by
    rw [process_record_id s i A _ u hA, if_pos hp]
  rw [hrec]
  have hself : (handle_end i A s).clients A = empty_client_t := by
    simp [handle_end]
  have hother : ∀ j, j ≠ A → (handle_end i A s).clients j = s.clients j := by
    intro j hj
    simp [handle_end, Function.update_noteq hj]
  refine ⟨hself, hother, ?_⟩
  intro hlow
  have hlf : LowestFree (handle_end i A s).clients A := by
    refine ⟨hA1, hA, by rw [hself]; rfl, ?_⟩
    intro k hk1 hk2
    rw [hother k (by omega)]
    exact hlow k hk1 hk2
  refine ⟨first_free_eq_of_lowest _ A hlf, ?_⟩
  intro i2
  rw [process_record_begin, handle_begin_id _ i2 A hlf, handle_begin_fd _ i2 A hlf]
  simp

/-! ## C9: Reconnect -/

theorem handle_reconnect_idem (s : State) (i A : Nat) :
    handle_reconnect i A (handle_reconnect i A s) = handle_reconnect i A s := by
  unfold handle_reconnect set_fd
  simp [FD_SET]

/-- C9 (failing input): in the paired game socket 7 first delivers the 14 bytes
`x\0aaaaaaaaaaaa`, which are dropped; line 161 then clears one byte, so the next
receive of the 11 bytes `1:RECONNECT` on socket 7 is followed in the array by
`aaa`.  The code parses `1:RECONNECTaaa` and takes the relay branch: the pending
buffer of the opponent, record 2, becomes `RECONNECTaaa`, the opponent's socket
5 enters the write set and socket 7 does not. -/
theorem C9_stale_bytes_turn_reconnect_into_move :
    stale_tail ['x', '\x00', 'a', 'a', 'a', 'a', 'a', 'a', 'a', 'a', 'a', 'a', 'a', 'a',
      '\x00'] 11 = ['a', 'a', 'a', '\x00'] ∧
    (paired_4_5.clients 1).id = 1 ∧
    (paired_4_5.clients 2).response = [] ∧
    FD_ISSET 5 paired_4_5.w_mask = false ∧
    ((run paired_4_5
      [.recv 7 ['x', '\x00', 'a', 'a', 'a', 'a', 'a', 'a', 'a', 'a', 'a', 'a', 'a', 'a']
        clean_tail,
       .recv 7 ('1' :: ':' :: RECONNECT_EVENT) ['a', 'a', 'a', '\x00']]).clients 2).response
      = RECONNECT_EVENT ++ ['a', 'a', 'a'] ∧
    FD_ISSET 5 (run paired_4_5
      [.recv 7 ['x', '\x00', 'a', 'a', 'a', 'a', 'a', 'a', 'a', 'a', 'a', 'a', 'a', 'a']
        clean_tail,
       .recv 7 ('1' :: ':' :: RECONNECT_EVENT) ['a', 'a', 'a', '\x00']]).w_mask = true ∧
    FD_ISSET 7 (run paired_4_5
      [.recv 7 ['x', '\x00', 'a', 'a', 'a', 'a', 'a', 'a', 'a', 'a', 'a', 'a', 'a', 'a']
        clean_tail,
       .recv 7 ('1' :: ':' :: RECONNECT_EVENT) ['a', 'a', 'a', '\x00']]).w_mask = false :=
  ⟨by decide, by decide, by decide, by decide, by decide, by decide!,
    by decide!⟩

/-- Reconnect received with its terminating NUL (behaviour behind C9): for an
allocated id `A`, the bytes `<A>:RECONNECT\0` on socket `i`, whatever follows
them, set `clients[A].fd = i` and leave every other field of slot `A` unchanged,
leave every other slot, `awaiting` and the read set unchanged, add `i` to the
write set and change no other member of it; the same bytes on `i` again give
the same state. -/
theorem reconnect_rebinds_when_framed (s : State) (i A : Nat) (rest u : List Char)
    (hA : A < MAX_CLIENTS) (hid : (s.clients A).id ≠ 0) :
    (process_record i (fmt_d A ++ ':' :: (RECONNECT_EVENT ++ '\x00' :: rest)) u s).clients A
        = { s.clients A with fd := i } ∧
    (∀ j, j ≠ A →
      (process_record i (fmt_d A ++ ':' :: (RECONNECT_EVENT ++ '\x00' :: rest)) u s).clients j
        = s.clients j) ∧
    (process_record i (fmt_d A ++ ':' :: (RECONNECT_EVENT ++ '\x00' :: rest)) u s).awaiting
      = s.awaiting ∧
    (process_record i (fmt_d A ++ ':' :: (RECONNECT_EVENT ++ '\x00' :: rest)) u s).r_mask
      = s.r_mask ∧
    FD_ISSET i
      (process_record i (fmt_d A ++ ':' :: (RECONNECT_EVENT ++ '\x00' :: rest)) u s).w_mask
      = true ∧
    (∀ x, x ≠ i →
      FD_ISSET x
        (process_record i (fmt_d A ++ ':' :: (RECONNECT_EVENT ++ '\x00' :: rest)) u s).w_mask
        = FD_ISSET x s.w_mask) ∧
    process_record i (fmt_d A ++ ':' :: (RECONNECT_EVENT ++ '\x00' :: rest)) u
        (process_record i (fmt_d A ++ ':' :: (RECONNECT_EVENT ++ '\x00' :: rest)) u s)
      = process_record i (fmt_d A ++ ':' :: (RECONNECT_EVENT ++ '\x00' :: rest)) u s := by
  have _ := hid
  have h0 : '\x00' ∉ RECONNECT_EVENT := by decide
  have hc := c_str_framed RECONNECT_EVENT rest u h0
  have hp1 : (strsep (c_str ((RECONNECT_EVENT ++ '\x00' :: rest) ++ u))).1 ≠ END_EVENT := by
    rw [hc]; decide
  have hp2 : (strsep (c_str ((RECONNECT_EVENT ++ '\x00' :: rest) ++ u))).1
      = RECONNECT_EVENT := by
    rw [hc]; decide
  have hrec : ∀ t : State,
      process_record i (fmt_d A ++ ':' :: (RECONNECT_EVENT ++ '\x00' :: rest)) u t
        = handle_reconnect i A t := by
    intro t
    rw [process_record_id t i A _ u hA, if_neg hp1, if_pos hp2]
  rw [hrec (process_record i (fmt_d A ++ ':' :: (RECONNECT_EVENT ++ '\x00' :: rest)) u s),
    hrec s]
  refine ⟨?_, ?_, rfl, rfl, ?_, ?_, handle_reconnect_idem s i A⟩
  · simp [handle_reconnect, set_fd]
  · intro j hj
    simp [handle_reconnect, set_fd_of_ne _ _ _ _ hj]
  · simp [handle_reconnect, FD_ISSET, FD_SET]
  · intro x hx
    simp [handle_reconnect, FD_ISSET, FD_SET, Function.update_noteq hx]

/-! ## C10: a record without separator -/

/-- C10 (failing input): in the paired game socket 4 first delivers the 11 bytes
`\0\0\0\0\0\0\0:END`, an empty string, which is dropped; line 161 then clears
nothing, so the next receive of the 7 bytes `0000001`, a record without `':'`
that is not `BEGIN`, is followed in the array by `:END`.  The code parses
`0000001:END` and resets slot 1. -/
theorem C10_stale_bytes_add_separator :
    stale_tail ['\x00', '\x00', '\x00', '\x00', '\x00', '\x00', '\x00', ':', 'E', 'N', 'D',
      '\x00'] 7 = [':', 'E', 'N', 'D', '\x00'] ∧
    ['0', '0', '0', '0', '0', '0', '1'] ≠ BEGIN_EVENT ∧
    ':' ∉ ['0', '0', '0', '0', '0', '0', '1'] ∧
    (paired_4_5.clients 1).id = 1 ∧
    ((run paired_4_5
      [.recv 4 ['\x00', '\x00', '\x00', '\x00', '\x00', '\x00', '\x00', ':', 'E', 'N', 'D']
        clean_tail]).clients 1).id = 1 ∧
    (run paired_4_5
      [.recv 4 ['\x00', '\x00', '\x00', '\x00', '\x00', '\x00', '\x00', ':', 'E', 'N', 'D']
        clean_tail,
       .recv 4 ['0', '0', '0', '0', '0', '0', '1'] [':', 'E', 'N', 'D', '\x00']]).clients 1
      = empty_client_t := by
  decide

/-- A record without separator received with its terminating NUL (behaviour behind
C10): when the received bytes hold a NUL and the string before it is not `BEGIN`
and contains no `':'`, the whole state (every slot, `awaiting`, both interest
sets) is unchanged, whatever follows the received bytes. -/
theorem no_separator_rejected_when_framed (s : State) (i : Nat) (recvd u : List Char)
    (hf : '\x00' ∈ recvd)
    (h1 : c_str recvd ≠ BEGIN_EVENT) (h2 : ':' ∉ c_str recvd) :
    process_record i recvd u s = s := by
  have hc : has_colon (c_str recvd) = false := by
    simpa [has_colon] using h2
  unfold process_record
  rw [c_str_append_of_mem recvd u hf]
  simp [h1, hc]

/-! ## C4, C7, C8: the code at the failing inputs -/

/-- C4 (failing input): `BEGIN` on socket 4 makes record 1 the waiting record;
after `1:END` slot 1 is free again but `awaiting` is still 1; the next `BEGIN`
(on socket 5) is given id 1 and is paired with itself. -/
theorem C4_awaiting_survives_terminate :
    (run State.init [.recv 4 BEGIN_EVENT clean_tail, .recv 4 ['1', ':', 'E', 'N', 'D'] clean_tail]).awaiting = 1 ∧
    ((run State.init [.recv 4 BEGIN_EVENT clean_tail, .recv 4 ['1', ':', 'E', 'N', 'D'] clean_tail]).clients 1).id
      = 0 ∧
    (run State.init [.recv 4 BEGIN_EVENT clean_tail, .recv 4 ['1', ':', 'E', 'N', 'D'] clean_tail,
        .recv 5 BEGIN_EVENT clean_tail]).clients 1
      = { id := 1, opponent_id := 1, color := some BLACK_COLOR, result := 0, fd := 5,
          response := ['1', ':', 'B', 'L', 'A', 'C', 'K'], sent_ctr := 0 } := by
  decide

/-- C7 (failing input): in the initial registry slot 5 is free; the record
`5:e2e4` writes the payload into the pending buffer of slot 0 before the check
of `clients[5].id` drops the record. -/
theorem C7_unknown_id_move_writes_slot_zero :
    (State.init.clients 5).id = 0 ∧
    (State.init.clients 0).response = [] ∧
    ((process_record 4 ['5', ':', 'e', '2', 'e', '4'] clean_tail State.init).clients 0).response
      = ['e', '2', 'e', '4'] := by
  decide

/-- C8 (failing input): in the initial registry slot 5 is free; the record
`5:RECONNECT` on socket 4 still stores 4 in `clients[5].fd` and adds socket 4 to
the write set. -/
theorem C8_unknown_id_reconnect_binds :
    (State.init.clients 5).id = 0 ∧
    (State.init.clients 5).fd = 0 ∧
    FD_ISSET 4 State.init.w_mask = false ∧
    ((process_record 4 ['5', ':', 'R', 'E', 'C', 'O', 'N', 'N', 'E', 'C', 'T'] clean_tail
        State.init).clients 5).fd = 4 ∧
    FD_ISSET 4 (process_record 4 ['5', ':', 'R', 'E', 'C', 'O', 'N', 'N', 'E', 'C', 'T'] clean_tail
        State.init).w_mask = true := by
  decide

/-! ## Dispatch of a received record -/

theorem process_record_cases (i : Nat) (recvd tail : List Char) (s : State) :
    process_record i recvd tail s = s ∨
    (c_str (recvd ++ tail) = BEGIN_EVENT ∧
      process_record i recvd tail s = handle_begin i s) ∨
    (c_str (recvd ++ tail) ≠ BEGIN_EVENT ∧ parsed_id (recvd ++ tail) < MAX_CLIENTS ∧
      (strtol (strsep (c_str (recvd ++ tail))).1).2 = [] ∧
      0 ≤ (strtol (strsep (c_str (recvd ++ tail))).1).1 ∧
      ((second_field (recvd ++ tail) = END_EVENT ∧
          process_record i recvd tail s = handle_end i (parsed_id (recvd ++ tail)) s) ∨
        process_record i recvd tail s = handle_reconnect i (parsed_id (recvd ++ tail)) s ∨
        process_record i recvd tail s
          = handle_move i (parsed_id (recvd ++ tail)) (second_field (recvd ++ tail)) s)) := by
  unfold process_record parsed_id second_field
  generalize recvd ++ tail = buf
  dsimp only
  split_ifs with h1 h2 h3 h4 h5 h6
  · right; left; exact ⟨h1, rfl⟩
  · left; rfl
  · left; rfl
  · left; rfl
  · right; right
    refine ⟨h1, by omega, ?_, ?_, Or.inl ⟨h5, rfl⟩⟩
    · by_contra hne
      exact h3 (Or.inl (List.length_pos.mpr hne))
    · by_contra hneg
      exact h3 (Or.inr (by omega))
  · right; right
    refine ⟨h1, by omega, ?_, ?_, Or.inr (Or.inl rfl)⟩
    · by_contra hne
      exact h3 (Or.inl (List.length_pos.mpr hne))
    · by_contra hneg
      exact h3 (Or.inr (by omega))
  · right; right
    refine ⟨h1, by omega, ?_, ?_, Or.inr (Or.inr rfl)⟩
    · by_contra hne
      exact h3 (Or.inl (List.length_pos.mpr hne))
    · by_contra hneg
      exact h3 (Or.inr (by omega))

/-! ## The link invariant -/

theorem linksOk_init : LinksOk State.init := by
  refine ⟨fun _ => Or.inl rfl, fun _ _ => rfl, fun h => absurd rfl h, fun _ h => absurd rfl h⟩

theorem linksOk_of_same (s t : State) (h : LinksOk s)
    (hid : ∀ j, (t.clients j).id = (s.clients j).id)
    (hopp : ∀ j, (t.clients j).opponent_id = (s.clients j).opponent_id)
    (haw : t.awaiting = s.awaiting ∨ t.awaiting = 0) : LinksOk t := by
  obtain ⟨i1, i2, i3, i4⟩ := h
  refine ⟨?_, ?_, ?_, ?_⟩
  · intro j; rw [hid]; exact i1 j
  · intro j; rw [hid, hopp]; exact i2 j
  · intro hne
    rcases haw with e | e
    · rw [e, hid, hopp]
      exact i3 (by rw [← e]; exact hne)
    · exact absurd e hne
  · intro A
    rw [hid, hopp, hid, hopp]
    exact i4 A

theorem linksOk_handle_reconnect (s : State) (i c : Nat) (h : LinksOk s) :
    LinksOk (handle_reconnect i c s) :=
  linksOk_of_same s _ h (fun j => by simp [handle_reconnect])
    (fun j => by simp [handle_reconnect]) (Or.inl rfl)

theorem linksOk_handle_move (s : State) (i c : Nat) (tok : List Char) (h : LinksOk s) :
    LinksOk (handle_move i c tok s) := by
  refine linksOk_of_same s _ h ?_ ?_ ?_
  · intro j
    unfold handle_move
    dsimp only
    split_ifs <;> simp
  · intro j
    unfold handle_move
    dsimp only
    split_ifs <;> simp
  · unfold handle_move
    dsimp only
    split_ifs <;> exact Or.inl rfl

theorem linksOk_process_close (s : State) (i : Nat) (h : LinksOk s) :
    LinksOk (process_close i s) := by
  refine linksOk_of_same s _ h (fun _ => rfl) (fun _ => rfl) ?_
  unfold process_close
  dsimp only
  split_ifs
  · exact Or.inr rfl
  · exact Or.inl rfl

theorem linksOk_process_flush (s : State) (i c0 : Nat) (n : Int) (h : LinksOk s) :
    LinksOk (process_flush i c0 n s) := by
  refine linksOk_of_same s _ h ?_ ?_ ?_
  · intro j
    unfold process_flush
    dsimp only
    split_ifs <;> simp
  · intro j
    unfold process_flush
    dsimp only
    split_ifs <;> simp
  · unfold process_flush
    dsimp only
    split_ifs <;> simp

theorem linksOk_process_accept (s : State) (cfd : Nat) (h : LinksOk s) :
    LinksOk (process_accept cfd s) :=
  linksOk_of_same s _ h (fun _ => rfl) (fun _ => rfl) (Or.inl rfl)

theorem handle_begin_waiting_clients (s : State) (i c : Nat) (haw : s.awaiting = 0)
    (hc : LowestFree s.clients c) (k : Nat) :
    (handle_begin i s).clients k =
      if k = c then
        { s.clients c with id := c, fd := i, color := some WHITE_COLOR,
                           response := fmt_d c ++ ':' :: WHITE_COLOR }
      else s.clients k := by
  rw [handle_begin_waiting s i c haw hc]
  simp only [Function.update_apply]

theorem handle_begin_pairing_clients (s : State) (i c w : Nat) (hw : s.awaiting = w)
    (haw : w ≠ 0) (hc : LowestFree s.clients c) (hne : w ≠ c) (k : Nat) :
    (handle_begin i s).clients k =
      if k = w then { s.clients w with opponent_id := c }
      else if k = c then
        { s.clients c with id := c, fd := i, color := some BLACK_COLOR, opponent_id := w,
                           response := fmt_d c ++ ':' :: BLACK_COLOR }
      else s.clients k := by
  rw [handle_begin_pairing s i c w hw haw hc hne]
  simp only [Function.update_apply]

theorem linksOk_handle_begin (s : State) (i : Nat) (h : LinksOk s) :
    LinksOk (handle_begin i s) := by
  rcases first_free_spec s.clients with ⟨h0, _⟩ | hc
  · rw [handle_begin_full s i h0]; exact h
  · generalize first_free s.clients = c at hc
    obtain ⟨i1, i2, i3, i4⟩ := h
    have hc0 : c ≠ 0 := by have := hc.1; omega
    have hcid : (s.clients c).id = 0 := hc.2.2.1
    have hcopp : (s.clients c).opponent_id = 0 := i2 c hcid
    by_cases haw : s.awaiting = 0
    · have hcl := handle_begin_waiting_clients s i c haw hc
      have hawt : (handle_begin i s).awaiting = c := by
        rw [handle_begin_waiting s i c haw hc]
      refine ⟨?_, ?_, ?_, ?_⟩
      · intro j
        rw [hcl]
        by_cases hj : j = c
        · right; simp [hj]
        · simpa [hj] using i1 j
      · intro j
        rw [hcl]
        by_cases hj : j = c
        · simp [hj, hcopp]
        · simpa [hj] using i2 j
      · intro _
        rw [hawt, hcl]
        simp [hcopp]
      · intro A
        rw [hcl A]
        by_cases hA : A = c
        · simp [hA, hcopp]
        · simp only [if_neg hA]
          intro hAid hAopp
          have hB := i4 A hAid hAopp
          have hBc : (s.clients A).opponent_id ≠ c := by
            intro e
            rw [e, hcid] at hB
            exact hc0 hB.1.symm
          rw [hcl, if_neg hBc]
          exact hB
    · obtain ⟨hwid, hwopp⟩ := i3 haw
      generalize hw : s.awaiting = w at haw hwid hwopp
      have hwc : w ≠ c := by
        intro e
        rw [e, hcid] at hwid
        exact hc0 hwid.symm
      have hcw : c ≠ w := fun e => hwc e.symm
      have hcl := handle_begin_pairing_clients s i c w hw haw hc hwc
      have hawt : (handle_begin i s).awaiting = 0 := by
        rw [handle_begin_pairing s i c w hw haw hc hwc]
      refine ⟨?_, ?_, ?_, ?_⟩
      · intro j
        rw [hcl]
        by_cases hj : j = w
        · right; simp [hj, hwid]
        · by_cases hj2 : j = c
          · right; simp [hj2, hcw]
          · simpa [hj, hj2] using i1 j
      · intro j
        rw [hcl]
        by_cases hj : j = w
        · simp [hj, hwid, haw]
        · by_cases hj2 : j = c
          · simp [hj2, hcw, hc0]
          · simpa [hj, hj2] using i2 j
      · intro e
        exact absurd hawt e
      · intro A
        rw [hcl A]
        by_cases hA : A = w
        · intro _ _
          simp only [if_pos hA]
          rw [hcl c, if_neg hcw, if_pos rfl]
          exact ⟨rfl, hA.symm⟩
        · by_cases hA2 : A = c
          · intro _ _
            simp only [if_neg hA, if_pos hA2]
            rw [hcl w, if_pos rfl]
            exact ⟨hwid, hA2.symm⟩
          · simp only [if_neg hA, if_neg hA2]
            intro hAid hAopp
            have hB := i4 A hAid hAopp
            have hA0 : A ≠ 0 := by
              rcases i1 A with e | e
              · exact absurd e hAid
              · intro e0; rw [e0] at e; rw [e0] at hAid; exact hAid e
            have hBc : (s.clients A).opponent_id ≠ c := by
              intro e
              rw [e, hcid] at hB
              exact hc0 hB.1.symm
            have hBw : (s.clients A).opponent_id ≠ w := by
              intro e
              rw [e, hwopp] at hB
              exact hA0 hB.2.symm
            rw [hcl, if_neg hBw, if_neg hBc]
            exact hB

/-- Every event other than a Terminate record preserves the link invariant. -/
theorem linksOk_step (s : State) (e : Event) (h : LinksOk s) (hg : no_terminate s e) :
    LinksOk (step s e) := by
  cases e with
  | accept cfd => exact linksOk_process_accept s cfd h
  | close i => exact linksOk_process_close s i h
  | flush i c0 n => exact linksOk_process_flush s i c0 n h
  | recv i recvd tail =>
    have hg2 : '\x00' ∈ recvd ∧ second_field recvd ≠ END_EVENT := hg
    show LinksOk (process_record i recvd tail s)
    rw [process_record_framed i recvd tail s hg2.1]
    rcases process_record_cases i recvd [] s with e | ⟨_, e⟩ | ⟨_, _, _, _, ⟨he, _⟩ | e | e⟩
    · rw [e]; exact h
    · rw [e]; exact linksOk_handle_begin s i h
    · rw [List.append_nil] at he
      exact absurd he hg2.2
    · rw [e]; exact linksOk_handle_reconnect s i _ h
    · rw [e]; exact linksOk_handle_move s i _ _ h

theorem linksOk_of_reachable (s : State) (h : ReachableBy no_terminate s) : LinksOk s := by
  induction h with
  | init => exact linksOk_init
  | step e _ hg ih => exact linksOk_step _ e ih hg

/-! ## C3: symmetry of pairing -/

theorem reachable_run (es : List Event) : ∀ s, Reachable s → Reachable (run s es) := by
  induction es with
  | nil => intro s h; exact h
  | cons e es ih =>
    intro s h
    exact ih (step s e) (ReachableBy.step e h trivial)

/-- C3 (counterexample): after two handshakes, the flush of both acknowledgments
and the record `1:END`, the state is reachable, record 2 is allocated with
`opponent_id = 1`, and slot 1 is free. -/
theorem C3_terminate_breaks_symmetry :
    Reachable (run paired_4_5 [.recv 4 ['1', ':', 'E', 'N', 'D'] clean_tail]) ∧
    ((run paired_4_5 [.recv 4 ['1', ':', 'E', 'N', 'D'] clean_tail]).clients 2).id = 2 ∧
    ((run paired_4_5 [.recv 4 ['1', ':', 'E', 'N', 'D'] clean_tail]).clients 2).opponent_id
      = 1 ∧
    ((run paired_4_5 [.recv 4 ['1', ':', 'E', 'N', 'D'] clean_tail]).clients 1).id = 0 ∧
    ((run paired_4_5 [.recv 4 ['1', ':', 'E', 'N', 'D'] clean_tail]).clients 1).opponent_id
      = 0 :=
  ⟨reachable_run _ _ (reachable_run _ _ ReachableBy.init), by decide, by decide, by decide,
    by decide⟩

/-- C3 (amended): in every state reachable from the initial registry by loop
events in which every record is received together with its terminating NUL
(whatever bytes follow in the array) and none is a Terminate record (a record
whose second field is `END`), every allocated record `A` with
`opponent_id = B ≠ 0` has `B` allocated (`clients[B].id = B`) with
`clients[B].opponent_id = A`. -/
theorem C3_pairing_symmetric_without_terminate (s : State)
    (h : ReachableBy no_terminate s) (A B : Nat)
    (hA : (s.clients A).id ≠ 0) (hAB : (s.clients A).opponent_id = B) (hB : B ≠ 0) :
    (s.clients B).id = B ∧ (s.clients B).opponent_id = A := by
  have hl := linksOk_of_reachable s h
  subst hAB
  exact hl.2.2.2 A hA hB

/-- C3 (witness): records 1 and 2 of the paired game. -/
theorem C3_pairing_symmetric_without_terminate_witness :
    (paired_4_5.clients 2).id = 2 ∧ (paired_4_5.clients 2).opponent_id = 1 :=
  C3_pairing_symmetric_without_terminate paired_4_5
    (ReachableBy.step (.flush 5 0 7)
      (ReachableBy.step (.flush 4 0 7)
        (ReachableBy.step (.recv 5 (BEGIN_EVENT ++ ['\x00']) clean_tail)
          (ReachableBy.step (.recv 4 (BEGIN_EVENT ++ ['\x00']) clean_tail) ReachableBy.init
            (by decide))
          (by decide))
        (by decide)) (by decide))
    1 2 (by decide) (by decide) (by decide)

/-! ## C5: one record per socket -/

theorem fdUnique_init : FdUnique State.init := by
  intro A B _ _ hA _ _
  exact absurd rfl hA

theorem fdUnique_of_same (s t : State) (h : FdUnique s)
    (hid : ∀ j, (t.clients j).id ≠ 0 → (s.clients j).id ≠ 0)
    (hfd : ∀ j, (t.clients j).id ≠ 0 → (t.clients j).fd = (s.clients j).fd) :
    FdUnique t := by
  intro A B hA hB hAid hBid hfdAB
  rw [hfd A hAid, hfd B hBid] at hfdAB
  exact h A B hA hB (hid A hAid) (hid B hBid) hfdAB

theorem fdUnique_bind (s t : State) (i c : Nat) (h : FdUnique s)
    (hg : ∀ j, j < MAX_CLIENTS → (s.clients j).id ≠ 0 → (s.clients j).fd = i → j = c)
    (hid : ∀ j, j ≠ c → (t.clients j).id = (s.clients j).id)
    (hfd : ∀ j, j ≠ c → (t.clients j).fd = (s.clients j).fd)
    (hc : (t.clients c).fd = i) : FdUnique t := by
  intro A B hA hB hAid hBid hfdAB
  by_cases hAc : A = c
  · by_cases hBc : B = c
    · rw [hAc, hBc]
    · rw [hAc, hc, hfd B hBc] at hfdAB
      rw [hid B hBc] at hBid
      rw [hAc]
      exact (hg B hB hBid hfdAB.symm).symm
  · by_cases hBc : B = c
    · rw [hBc, hc, hfd A hAc] at hfdAB
      rw [hid A hAc] at hAid
      rw [hBc]
      exact hg A hA hAid hfdAB
    · rw [hfd A hAc, hfd B hBc] at hfdAB
      rw [hid A hAc] at hAid
      rw [hid B hBc] at hBid
      exact h A B hA hB hAid hBid hfdAB

theorem begin_field_ne_fmt_d : ∀ j, j < 100 → (strsep BEGIN_EVENT).1 ≠ fmt_d j := by
  decide

theorem parsed_id_of_field (buf : List Char) (j : Nat) (hj : j < MAX_CLIENTS)
    (h : (strsep (c_str buf)).1 = fmt_d j) : parsed_id buf = j := by
  unfold parsed_id
  rw [h, strtol_fmt_d j hj]
  have : j < 2 ^ 32 := by unfold MAX_CLIENTS at hj; omega
  simp only [Int.toNat_ofNat]
  exact Nat.mod_eq_of_lt this

/-- Every event that arrives on a socket of its own preserves `FdUnique`. -/
theorem fdUnique_step (s : State) (e : Event) (h : FdUnique s) (hg : own_socket s e) :
    FdUnique (step s e) := by
  cases e with
  | accept cfd => exact fdUnique_of_same s _ h (fun _ hj => hj) (fun _ _ => rfl)
  | close i => exact fdUnique_of_same s _ h (fun _ hj => hj) (fun _ _ => rfl)
  | flush i c0 n =>
    refine fdUnique_of_same s _ h ?_ ?_
    · intro j
      show ((process_flush i c0 n s).clients j).id ≠ 0 → _
      unfold process_flush
      dsimp only
      split_ifs <;> simp
    · intro j _
      show ((process_flush i c0 n s).clients j).fd = _
      unfold process_flush
      dsimp only
      split_ifs <;> simp
  | recv i buf tail =>
    have hg0 : '\x00' ∈ buf ∧
        ∀ j, j < MAX_CLIENTS → (s.clients j).id ≠ 0 → (s.clients j).fd = i →
          (strsep (c_str buf)).1 = fmt_d j := hg
    have hg2 := hg0.2
    show FdUnique (process_record i buf tail s)
    rw [process_record_framed i buf tail s hg0.1]
    have hcases := process_record_cases i buf [] s
    rw [List.append_nil] at hcases
    rcases hcases with e | ⟨hb, e⟩ | ⟨_, hlt, _, _, ⟨_, e⟩ | e | e⟩
    · rw [e]; exact h
    · rw [e]
      rcases first_free_spec s.clients with ⟨h0, _⟩ | hc
      · rw [handle_begin_full s i h0]; exact h
      · refine fdUnique_bind s _ i (first_free s.clients) h ?_ ?_ ?_ ?_
        · intro j hj hjid hjfd
          have := hg2 j hj hjid hjfd
          rw [hb] at this
          exact absurd this (begin_field_ne_fmt_d j hj)
        · intro j hj
          rw [handle_begin_id s i _ hc, if_neg hj]
        · intro j hj
          rw [handle_begin_fd s i _ hc, if_neg hj]
        · rw [handle_begin_fd s i _ hc, if_pos rfl]
    · rw [e]
      refine fdUnique_of_same s _ h ?_ ?_
      · intro j
        by_cases hj : j = parsed_id buf
        · simp [handle_end, hj, empty_client_t]
        · simp [handle_end, Function.update_noteq hj]
      · intro j
        by_cases hj : j = parsed_id buf
        · simp [handle_end, hj, empty_client_t]
        · simp [handle_end, Function.update_noteq hj]
    · rw [e]
      refine fdUnique_bind s _ i (parsed_id buf) h ?_ ?_ ?_ ?_
      · intro j hj hjid hjfd
        exact (parsed_id_of_field buf j hj (hg2 j hj hjid hjfd)).symm
      · intro j _
        simp [handle_reconnect]
      · intro j hj
        simp [handle_reconnect, hj]
      · simp [handle_reconnect]
    · rw [e]
      by_cases hid : (s.clients (parsed_id buf)).id = 0
      · refine fdUnique_of_same s _ h ?_ ?_
        · intro j
          unfold handle_move
          dsimp only
          split_ifs <;> simp
        · intro j _
          unfold handle_move
          dsimp only
          split_ifs with hh
          · simp
          · exact absurd (by simpa using hid) hh
      · refine fdUnique_bind s _ i (parsed_id buf) h ?_ ?_ ?_ ?_
        · intro j hj hjid hjfd
          exact (parsed_id_of_field buf j hj (hg2 j hj hjid hjfd)).symm
        · intro j _
          unfold handle_move
          dsimp only
          split_ifs <;> simp
        · intro j hj
          unfold handle_move
          dsimp only
          split_ifs <;> simp [hj]
        · unfold handle_move
          dsimp only
          split_ifs with hh
          · exact absurd (by simpa using hh) hid
          · simp

theorem fdUnique_of_reachable (s : State) (h : ReachableBy own_socket s) : FdUnique s := by
  induction h with
  | init => exact fdUnique_init
  | step e _ hg ih => exact fdUnique_step _ e ih hg

/-- C5 (counterexample): two `BEGIN` records on the same socket 4 give the
reachable state in which the distinct allocated records 1 and 2 both have
`fd = 4`. -/
theorem C5_two_records_share_socket :
    Reachable (run State.init
      [.recv 4 BEGIN_EVENT clean_tail, .recv 4 BEGIN_EVENT clean_tail]) ∧
    ((run State.init
      [.recv 4 BEGIN_EVENT clean_tail, .recv 4 BEGIN_EVENT clean_tail]).clients 1).id = 1 ∧
    ((run State.init
      [.recv 4 BEGIN_EVENT clean_tail, .recv 4 BEGIN_EVENT clean_tail]).clients 2).id = 2 ∧
    ((run State.init
      [.recv 4 BEGIN_EVENT clean_tail, .recv 4 BEGIN_EVENT clean_tail]).clients 1).fd = 4 ∧
    ((run State.init
      [.recv 4 BEGIN_EVENT clean_tail, .recv 4 BEGIN_EVENT clean_tail]).clients 2).fd = 4 :=
  ⟨reachable_run _ _ ReachableBy.init, by decide, by decide, by decide, by decide⟩

/-- C5 (amended): in every state reachable from the initial registry by loop
events in which every record is received together with its terminating NUL
(whatever bytes follow in the array) and arrives on a socket that is bound to
no allocated record other than the one whose decimal id is the record's id
field, no two distinct allocated records have the same `fd`. -/
theorem C5_fd_unique_on_own_sockets (s : State) (h : ReachableBy own_socket s)
    (A B : Nat) (hA : A < MAX_CLIENTS) (hB : B < MAX_CLIENTS)
    (hAid : (s.clients A).id ≠ 0) (hBid : (s.clients B).id ≠ 0) (hAB : A ≠ B) :
    (s.clients A).fd ≠ (s.clients B).fd :=
  fun e => hAB (fdUnique_of_reachable s h A B hA hB hAid hBid e)

/-- C5 (witness): records 1 and 2 of the paired game after a move of record 1,
received as `1:e2e4\0` in front of the stale bytes `def`, on its own socket. -/
theorem C5_fd_unique_on_own_sockets_witness :
    ((run paired_4_5
      [.recv 4 ['1', ':', 'e', '2', 'e', '4', '\x00'] ['d', 'e', 'f']]).clients 1).fd ≠
    ((run paired_4_5
      [.recv 4 ['1', ':', 'e', '2', 'e', '4', '\x00'] ['d', 'e', 'f']]).clients 2).fd :=
  C5_fd_unique_on_own_sockets
    (run paired_4_5 [.recv 4 ['1', ':', 'e', '2', 'e', '4', '\x00'] ['d', 'e', 'f']])
    (ReachableBy.step (.recv 4 ['1', ':', 'e', '2', 'e', '4', '\x00'] ['d', 'e', 'f'])
      (ReachableBy.step (.flush 5 0 7)
        (ReachableBy.step (.flush 4 0 7)
          (ReachableBy.step (.recv 5 (BEGIN_EVENT ++ ['\x00']) clean_tail)
            (ReachableBy.step (.recv 4 (BEGIN_EVENT ++ ['\x00']) clean_tail)
              ReachableBy.init (by decide))
            (by decide))
          (by decide)) (by decide))
      (by decide))
    1 2 (by decide) (by decide) (by decide) (by decide) (by decide)

/-! ## C11, C12: the id field -/

/-- C11 (failing input): in the paired game the record `4294967297:END`, whose id
field is the decimal numeral of `2 ^ 32 + 1`, is not rejected: the cast to
`uint` turns the id into 1 and slot 1 is reset. -/
theorem C11_id_above_uint_range_wraps :
    fmt_d (2 ^ 32 + 1) = ['4', '2', '9', '4', '9', '6', '7', '2', '9', '7'] ∧
    (paired_4_5.clients 1).id = 1 ∧
    (process_record 4 (fmt_d (2 ^ 32 + 1) ++ ':' :: END_EVENT) clean_tail paired_4_5).clients 1
      = empty_client_t := by
  decide

/-- C12 (failing inputs): in the paired game the records `+1:END` and ` 1:END`
(id field with a sign or a leading blank) reset slot 1, and the records
`:RECONNECT` (empty id field) and `-0:RECONNECT` on socket 7 store 7 in
`clients[0].fd` and add socket 7 to the write set. -/
theorem C12_non_numeric_id_accepted :
    (paired_4_5.clients 1).id = 1 ∧
    (process_record 4 ('+' :: '1' :: ':' :: END_EVENT) clean_tail paired_4_5).clients 1
      = empty_client_t ∧
    (process_record 4 (' ' :: '1' :: ':' :: END_EVENT) clean_tail paired_4_5).clients 1
      = empty_client_t ∧
    (paired_4_5.clients 0).fd = 0 ∧
    FD_ISSET 7 paired_4_5.w_mask = false ∧
    ((process_record 7 (':' :: RECONNECT_EVENT) clean_tail paired_4_5).clients 0).fd = 7 ∧
    FD_ISSET 7 (process_record 7 (':' :: RECONNECT_EVENT) clean_tail paired_4_5).w_mask = true ∧
    ((process_record 7 ('-' :: '0' :: ':' :: RECONNECT_EVENT) clean_tail paired_4_5).clients 0).fd
      = 7 := by
  decide

/-! ## C13: handshake on a full registry -/

/-- C13: if every id of `1 .. 99` is allocated, `BEGIN` on any socket, whatever
bytes follow the received ones in the array, leaves the whole state unchanged
(every slot, `awaiting`, both interest sets), so nothing is queued for that
socket and the write section has no message for it that it did not have
before. -/
theorem C13_handshake_on_full_registry (s : State) (i : Nat) (tail : List Char)
    (hfull : ∀ j, 1 ≤ j → j < MAX_CLIENTS → (s.clients j).id ≠ 0) :
    process_record i BEGIN_EVENT tail s = s ∧
    ∀ c0, flush_message i c0 (process_record i BEGIN_EVENT tail s)
      = flush_message i c0 s := by
  have h0 : first_free s.clients = 0 := by
    rcases first_free_spec s.clients with ⟨h0, _⟩ | hc
    · exact h0
    · exact absurd hc.2.2.1 (hfull _ hc.1 hc.2.1)
  have hs : process_record i BEGIN_EVENT tail s = s := by
    rcases process_record_begin_cases i tail s with e | e
    · exact e
    · rw [e, handle_begin_full s i h0]
  refine ⟨hs, ?_⟩
  intro c0
  rw [hs]

/-- C13 (witness): `BEGIN` on socket 5 with the full registry, in a clean array. -/
theorem C13_handshake_on_full_registry_witness :
    process_record 5 BEGIN_EVENT clean_tail full_registry = full_registry ∧
    ∀ c0, flush_message 5 c0 (process_record 5 BEGIN_EVENT clean_tail full_registry)
      = flush_message 5 c0 full_registry :=
  C13_handshake_on_full_registry full_registry 5 clean_tail (by
    intro j h1 h2
    simp [full_registry, h1, h2]
    omega)

/-! ## C14, C15, C16, C20: the code at the failing inputs -/

/-- C14 (failing input): after two handshakes the message `1:WHITE` is pending
for socket 4; a flush in which `send` transmits only 3 of its 7 bytes leaves the
buffer empty, not `HITE`, and removes socket 4 from the write set. -/
theorem C14_partial_write_drops_remainder :
    flush_message 4 0 (run State.init [.recv 4 BEGIN_EVENT clean_tail, .recv 5 BEGIN_EVENT clean_tail])
      = some ['1', ':', 'W', 'H', 'I', 'T', 'E'] ∧
    FD_ISSET 4 (run State.init [.recv 4 BEGIN_EVENT clean_tail, .recv 5 BEGIN_EVENT clean_tail]).w_mask = true ∧
    ((process_flush 4 0 3
        (run State.init [.recv 4 BEGIN_EVENT clean_tail, .recv 5 BEGIN_EVENT clean_tail])).clients 1).response
      = [] ∧
    ['1', ':', 'W', 'H', 'I', 'T', 'E'].drop 3 = ['H', 'I', 'T', 'E'] ∧
    FD_ISSET 4 (process_flush 4 0 3
        (run State.init [.recv 4 BEGIN_EVENT clean_tail, .recv 5 BEGIN_EVENT clean_tail])).w_mask = false := by
  decide

/-- C15 (failing input): after `BEGIN` on socket 4 the waiting record is 1 and is
bound to socket 4; the shutdown of socket 4 removes it from the read set but
leaves `awaiting = 1`, because `awaiting` holds the id 1 and is compared with the
descriptor 4. -/
theorem C15_close_keeps_awaiting :
    (run State.init [.accept 4, .recv 4 BEGIN_EVENT clean_tail]).awaiting = 1 ∧
    ((run State.init [.accept 4, .recv 4 BEGIN_EVENT clean_tail]).clients 1).fd = 4 ∧
    FD_ISSET 4 (run State.init [.accept 4, .recv 4 BEGIN_EVENT clean_tail]).r_mask = true ∧
    (process_close 4 (run State.init [.accept 4, .recv 4 BEGIN_EVENT clean_tail])).awaiting = 1 ∧
    ((process_close 4 (run State.init [.accept 4, .recv 4 BEGIN_EVENT clean_tail])).clients 1).id = 1 ∧
    FD_ISSET 4 (process_close 4 (run State.init [.accept 4, .recv 4 BEGIN_EVENT clean_tail])).r_mask
      = false := by
  decide

/-- C16 (failing input): a `recv` failure other than would-block on any socket,
in any state, ends the process with `exit(1)`; a would-block failure and a
shutdown keep it running. -/
theorem C16_read_failure_exits (i : Nat) (s : State) :
    read_section i (.failed false) s = .exited 1 ∧
    read_section i (.failed true) s = .running s ∧
    read_section i .shutdown s = .running (process_close i s) :=
  ⟨rfl, rfl, rfl⟩

/-- C20 (failing input): `BEGIN` on socket 4 makes record 1 the waiting record
with `1:WHITE` pending; `1:RECONNECT` on socket 4 puts socket 4 in the write set;
the write section then hands `1:WHITE` to `send` while `clients[1].opponent_id`
is still 0, and the flush clears `awaiting`. -/
theorem C20_reconnect_releases_ack_before_pairing :
    FD_ISSET 4 (run State.init [.accept 4, .recv 4 BEGIN_EVENT clean_tail]).w_mask = false ∧
    FD_ISSET 4 (run State.init [.accept 4, .recv 4 BEGIN_EVENT clean_tail,
        .recv 4 ('1' :: ':' :: RECONNECT_EVENT) clean_tail]).w_mask = true ∧
    flush_message 4 0 (run State.init [.accept 4, .recv 4 BEGIN_EVENT clean_tail,
        .recv 4 ('1' :: ':' :: RECONNECT_EVENT) clean_tail]) = some ['1', ':', 'W', 'H', 'I', 'T', 'E'] ∧
    ((run State.init [.accept 4, .recv 4 BEGIN_EVENT clean_tail,
        .recv 4 ('1' :: ':' :: RECONNECT_EVENT) clean_tail]).clients 1).opponent_id = 0 ∧
    (run State.init [.accept 4, .recv 4 BEGIN_EVENT clean_tail,
        .recv 4 ('1' :: ':' :: RECONNECT_EVENT) clean_tail]).awaiting = 1 ∧
    ((run State.init [.accept 4, .recv 4 BEGIN_EVENT clean_tail,
        .recv 4 ('1' :: ':' :: RECONNECT_EVENT) clean_tail, .flush 4 0 7]).clients 1).response = [] ∧
    ((run State.init [.accept 4, .recv 4 BEGIN_EVENT clean_tail,
        .recv 4 ('1' :: ':' :: RECONNECT_EVENT) clean_tail, .flush 4 0 7]).clients 1).sent_ctr = 1 ∧
    (run State.init [.accept 4, .recv 4 BEGIN_EVENT clean_tail,
        .recv 4 ('1' :: ':' :: RECONNECT_EVENT) clean_tail, .flush 4 0 7]).awaiting = 0 := by
  decide

/-! ## C17: id 0 is reserved -/

theorem idsOk_init : IdsOk State.init := fun _ => Or.inl rfl

theorem idsOk_of_same_or_zero (s t : State) (h : IdsOk s)
    (hid : ∀ j, (t.clients j).id = (s.clients j).id ∨ (t.clients j).id = 0) : IdsOk t := by
  intro j
  rcases hid j with e | e
  · rw [e]; exact h j
  · exact Or.inl e

theorem idsOk_handle_begin (s : State) (i : Nat) (h : IdsOk s) : IdsOk (handle_begin i s) := by
  rcases first_free_spec s.clients with ⟨h0, _⟩ | hc
  · rw [handle_begin_full s i h0]; exact h
  · intro j
    rw [handle_begin_id s i _ hc]
    by_cases hj : j = first_free s.clients
    · right
      rw [if_pos hj, hj]
      exact ⟨rfl, hc.1, hc.2.1⟩
    · rw [if_neg hj]; exact h j

theorem idsOk_step (s : State) (e : Event) (h : IdsOk s) : IdsOk (step s e) := by
  cases e with
  | accept cfd => exact idsOk_of_same_or_zero s _ h (fun _ => Or.inl rfl)
  | close i => exact idsOk_of_same_or_zero s _ h (fun _ => Or.inl rfl)
  | flush i c0 n =>
    refine idsOk_of_same_or_zero s _ h ?_
    intro j
    left
    show ((process_flush i c0 n s).clients j).id = _
    unfold process_flush
    dsimp only
    split_ifs <;> simp
  | recv i recvd tail =>
    show IdsOk (process_record i recvd tail s)
    rcases process_record_cases i recvd tail s with
      e | ⟨_, e⟩ | ⟨_, _, _, _, ⟨_, e⟩ | e | e⟩
    · rw [e]; exact h
    · rw [e]; exact idsOk_handle_begin s i h
    · rw [e]
      refine idsOk_of_same_or_zero s _ h ?_
      intro j
      by_cases hj : j = parsed_id (recvd ++ tail)
      · right; simp [handle_end, hj, empty_client_t]
      · left; simp [handle_end, Function.update_noteq hj]
    · rw [e]
      exact idsOk_of_same_or_zero s _ h (fun j => Or.inl (by simp [handle_reconnect]))
    · rw [e]
      refine idsOk_of_same_or_zero s _ h ?_
      intro j
      left
      unfold handle_move
      dsimp only
      split_ifs <;> simp

theorem idsOk_of_reachable (s : State) (h : Reachable s) : IdsOk s := by
  induction h with
  | init => exact idsOk_init
  | step e _ _ ih => exact idsOk_step _ e ih

theorem fmt_d_ne_zero : ∀ c, c < 100 → 1 ≤ c → fmt_d c ≠ fmt_d 0 := by
  decide

theorem handle_begin_response (s : State) (i c : Nat) (hc : LowestFree s.clients c)
    (k : Nat) :
    ((handle_begin i s).clients k).response =
      if k = c then fmt_d c ++ ':' :: (if s.awaiting = 0 then WHITE_COLOR else BLACK_COLOR)
      else (s.clients k).response := by
  have hff := first_free_eq_of_lowest s.clients c hc
  have hc0 : c ≠ 0 := by have := hc.1; omega
  have hw := handshake_response_eq c hc.2.1 WHITE_COLOR (by simp)
  have hb := handshake_response_eq c hc.2.1 BLACK_COLOR (by simp)
  unfold handle_begin
  simp only [hff, if_neg hc0]
  by_cases haw : s.awaiting = 0
  · simp only [if_pos haw]
    by_cases hk : k = c
    · simp [hk, hw]
    · simp [hk]
  · simp only [if_neg haw]
    by_cases hk : k = c
    · simp [hk, hb]
    · simp [hk]

/-- C17: in every state reachable from the initial registry by any sequence of
loop events (with any received bytes and any bytes behind them in the array),
`clients[0].id = 0` and every `clients[j].id` with `j` in `1 .. 99` is `0` or
`j`; and a `BEGIN` in such a state, whatever follows the received bytes in the
array, either changes nothing or queues
its acknowledgment `<c>:WHITE` or `<c>:BLACK` in a slot `c` of `1 .. 99`, the id
it carries (whose numeral is not that of 0), and leaves every other pending
buffer as it was. -/
theorem C17_id_zero_reserved (s : State) (h : Reachable s) :
    (s.clients 0).id = 0 ∧
    (∀ j, 1 ≤ j → j < MAX_CLIENTS → (s.clients j).id = 0 ∨ (s.clients j).id = j) ∧
    (∀ i tail, process_record i BEGIN_EVENT tail s = s ∨
      ∃ c col, 1 ≤ c ∧ c < MAX_CLIENTS ∧ (col = WHITE_COLOR ∨ col = BLACK_COLOR) ∧
        fmt_d c ≠ fmt_d 0 ∧
        ((process_record i BEGIN_EVENT tail s).clients c).id = c ∧
        ((process_record i BEGIN_EVENT tail s).clients c).response = fmt_d c ++ ':' :: col ∧
        ∀ k, k ≠ c →
          ((process_record i BEGIN_EVENT tail s).clients k).response = (s.clients k).response) := by
  have hi := idsOk_of_reachable s h
  refine ⟨?_, ?_, ?_⟩
  · rcases hi 0 with e | ⟨_, h1, _⟩
    · exact e
    · omega
  · intro j _ _
    rcases hi j with e | ⟨e, _, _⟩
    · exact Or.inl e
    · exact Or.inr e
  · intro i tail
    rcases process_record_begin_cases i tail s with e | e
    · left; exact e
    rw [e]
    rcases first_free_spec s.clients with ⟨h0, _⟩ | hc
    · left; exact handle_begin_full s i h0
    · right
      refine ⟨first_free s.clients,
        if s.awaiting = 0 then WHITE_COLOR else BLACK_COLOR, hc.1, hc.2.1, ?_,
        fmt_d_ne_zero _ hc.2.1 hc.1, ?_, ?_, ?_⟩
      · by_cases haw : s.awaiting = 0
        · left; rw [if_pos haw]
        · right; rw [if_neg haw]
      · rw [handle_begin_id s i _ hc, if_pos rfl]
      · rw [handle_begin_response s i _ hc, if_pos rfl]
      · intro k hk
        rw [handle_begin_response s i _ hc, if_neg hk]

/-- C17 (witness): the paired game. -/
theorem C17_id_zero_reserved_witness :
    (paired_4_5.clients 0).id = 0 ∧
    (∀ j, 1 ≤ j → j < MAX_CLIENTS →
      (paired_4_5.clients j).id = 0 ∨ (paired_4_5.clients j).id = j) ∧
    (∀ i tail, process_record i BEGIN_EVENT tail paired_4_5 = paired_4_5 ∨
      ∃ c col, 1 ≤ c ∧ c < MAX_CLIENTS ∧ (col = WHITE_COLOR ∨ col = BLACK_COLOR) ∧
        fmt_d c ≠ fmt_d 0 ∧
        ((process_record i BEGIN_EVENT tail paired_4_5).clients c).id = c ∧
        ((process_record i BEGIN_EVENT tail paired_4_5).clients c).response
          = fmt_d c ++ ':' :: col ∧
        ∀ k, k ≠ c →
          ((process_record i BEGIN_EVENT tail paired_4_5).clients k).response
            = (paired_4_5.clients k).response) :=
  C17_id_zero_reserved paired_4_5 (reachable_run _ _ ReachableBy.init)

/-! ## C18: the flush of a socket with one owner -/

theorem foldl_last_keep (P : Nat → Prop) [DecidablePred P] (c : Nat) :
    ∀ l : List Nat, (∀ j ∈ l, P j → j = c) →
      l.foldl (fun acc j => if P j then j else acc) c = c := by
  intro l
  induction l with
  | nil => intro _; rfl
  | cons a l ih =>
    intro h
    have ha : (if P a then a else c) = c := by
      by_cases hp : P a
      · rw [if_pos hp]; exact h a (List.mem_cons_self _ _) hp
      · rw [if_neg hp]
    rw [List.foldl_cons, ha]
    exact ih (fun j hj => h j (List.mem_cons_of_mem _ hj))

theorem foldl_last_unique (P : Nat → Prop) [DecidablePred P] (c : Nat) (hP : P c) :
    ∀ (l : List Nat) (c0 : Nat), c ∈ l → (∀ j ∈ l, P j → j = c) →
      l.foldl (fun acc j => if P j then j else acc) c0 = c := by
  intro l
  induction l with
  | nil => intro c0 hmem _; exact absurd hmem (List.not_mem_nil _)
  | cons a l ih =>
    intro c0 hmem h
    rw [List.foldl_cons]
    by_cases hac : a = c
    · rw [hac, if_pos hP]
      exact foldl_last_keep P c l (fun j hj => h j (List.mem_cons_of_mem _ hj))
    · have hcl : c ∈ l := by
        rcases List.mem_cons.mp hmem with e | e
        · exact absurd e.symm hac
        · exact e
      exact ih _ hcl (fun j hj => h j (List.mem_cons_of_mem _ hj))

theorem lookup_by_fd_unique (cl : Nat → client_t) (i c0 c : Nat) (hc1 : 1 ≤ c)
    (hc : c < MAX_CLIENTS) (hfd : (cl c).fd = i)
    (huniq : ∀ j, 1 ≤ j → j < MAX_CLIENTS → (cl j).fd = i → j = c) :
    lookup_by_fd cl i c0 = c := by
  unfold lookup_by_fd
  refine foldl_last_unique (fun j => (cl j).fd = i) c hfd _ c0 ?_ ?_
  · rw [List.mem_range'_1]
    unfold MAX_CLIENTS at hc ⊢
    omega
  · intro j hj hjfd
    rw [List.mem_range'_1] at hj
    exact huniq j hj.1 (by unfold MAX_CLIENTS at hj ⊢; omega) hjfd

/-- C18 (failing input): a reachable state in which record 1 is the only
allocated record bound to socket 4 and its pending buffer is empty, while the
Free slot 2 also holds descriptor 4 and the text `x`; the flush of socket 4
sends `x`, so the step is not a no-op: socket 4 leaves the write set. -/
theorem C18_free_slot_shadows_owner :
    Reachable (run paired_4_5 [.recv 5 ('2' :: ':' :: END_EVENT) clean_tail, .recv 4 ['1', ':', 'x'] clean_tail,
      .recv 4 ('2' :: ':' :: RECONNECT_EVENT) clean_tail]) ∧
    ((run paired_4_5 [.recv 5 ('2' :: ':' :: END_EVENT) clean_tail, .recv 4 ['1', ':', 'x'] clean_tail,
      .recv 4 ('2' :: ':' :: RECONNECT_EVENT) clean_tail]).clients 1).id = 1 ∧
    ((run paired_4_5 [.recv 5 ('2' :: ':' :: END_EVENT) clean_tail, .recv 4 ['1', ':', 'x'] clean_tail,
      .recv 4 ('2' :: ':' :: RECONNECT_EVENT) clean_tail]).clients 1).fd = 4 ∧
    (∀ j, j < MAX_CLIENTS → 1 ≤ j → j ≠ 1 →
      ((run paired_4_5 [.recv 5 ('2' :: ':' :: END_EVENT) clean_tail, .recv 4 ['1', ':', 'x'] clean_tail,
        .recv 4 ('2' :: ':' :: RECONNECT_EVENT) clean_tail]).clients j).id = 0) ∧
    ((run paired_4_5 [.recv 5 ('2' :: ':' :: END_EVENT) clean_tail, .recv 4 ['1', ':', 'x'] clean_tail,
      .recv 4 ('2' :: ':' :: RECONNECT_EVENT) clean_tail]).clients 1).response = [] ∧
    FD_ISSET 4 (run paired_4_5 [.recv 5 ('2' :: ':' :: END_EVENT) clean_tail, .recv 4 ['1', ':', 'x'] clean_tail,
      .recv 4 ('2' :: ':' :: RECONNECT_EVENT) clean_tail]).w_mask = true ∧
    flush_message 4 0 (run paired_4_5 [.recv 5 ('2' :: ':' :: END_EVENT) clean_tail,
      .recv 4 ['1', ':', 'x'] clean_tail, .recv 4 ('2' :: ':' :: RECONNECT_EVENT) clean_tail]) = some ['x'] ∧
    FD_ISSET 4 (process_flush 4 0 1 (run paired_4_5 [.recv 5 ('2' :: ':' :: END_EVENT) clean_tail,
      .recv 4 ['1', ':', 'x'] clean_tail, .recv 4 ('2' :: ':' :: RECONNECT_EVENT) clean_tail])).w_mask = false :=
  ⟨reachable_run _ _ (reachable_run _ _ ReachableBy.init), by decide, by decide, by decide,
    by decide, by decide, by decide, by decide⟩

/-- The flush of a socket held by a single slot (behaviour behind C18): let `c` be
an allocated record of `1 .. 99` bound to socket `i`, and let no other slot of
`1 .. 99`, allocated or Free, hold descriptor `i`.
If the pending buffer of `c` is empty, the write section sends nothing and
changes nothing.  If it holds a message, that message is handed to `send`; when
`send` fails or sends 0 bytes the state is unchanged, and when it sends the
whole message the buffer of `c` becomes empty, its `sent_ctr` grows by 1, no
other field of `c` and no other slot changes, and `i` (and only `i`) leaves the
write set. -/
theorem flush_of_sole_owner (s : State) (i c c0 : Nat)
    (hc1 : 1 ≤ c) (hc : c < MAX_CLIENTS) (hid : (s.clients c).id ≠ 0)
    (hfd : (s.clients c).fd = i)
    (huniq : ∀ j, 1 ≤ j → j < MAX_CLIENTS → (s.clients j).fd = i → j = c) :
    ((s.clients c).response = [] →
      flush_message i c0 s = none ∧ ∀ n, process_flush i c0 n s = s) ∧
    ((s.clients c).response ≠ [] →
      flush_message i c0 s = some (s.clients c).response ∧
      (∀ n : Int, n ≤ 0 → process_flush i c0 n s = s) ∧
      (process_flush i c0 ((s.clients c).response.length : Int) s).clients c
        = { s.clients c with response := [], sent_ctr := (s.clients c).sent_ctr + 1 } ∧
      (∀ j, j ≠ c →
        (process_flush i c0 ((s.clients c).response.length : Int) s).clients j
          = s.clients j) ∧
      FD_ISSET i (process_flush i c0 ((s.clients c).response.length : Int) s).w_mask
        = false ∧
      (∀ x, x ≠ i →
        FD_ISSET x (process_flush i c0 ((s.clients c).response.length : Int) s).w_mask
          = FD_ISSET x s.w_mask)) := by
  have _ := hid
  have hl := lookup_by_fd_unique s.clients i c0 c hc1 hc hfd huniq
  have hc0 : c ≠ 0 := by omega
  refine ⟨?_, ?_⟩
  · intro he
    refine ⟨?_, ?_⟩
    · unfold flush_message
      simp only [hl, if_neg hc0, if_pos he]
    · intro n
      unfold process_flush
      simp only [hl, if_neg hc0, if_pos he]
  · intro hne
    have hlen : ¬ (((s.clients c).response.length : Int) < 0) := by omega
    have hlen0 : ¬ (((s.clients c).response.length : Int) = 0) := by
      have := List.length_pos.mpr hne
      omega
    refine ⟨?_, ?_, ?_, ?_, ?_, ?_⟩
    · unfold flush_message
      simp only [hl, if_neg hc0, if_neg hne]
    · intro n hn
      unfold process_flush
      simp only [hl, if_neg hc0, if_neg hne]
      by_cases hn0 : n < 0
      · rw [if_pos hn0]
      · rw [if_neg hn0, if_pos (by omega)]
    · unfold process_flush
      simp only [hl, if_neg hc0, if_neg hne, if_neg hlen, if_neg hlen0]
      simp [incr_sent_ctr, set_response]
    · intro j hj
      unfold process_flush
      simp only [hl, if_neg hc0, if_neg hne, if_neg hlen, if_neg hlen0]
      rw [incr_sent_ctr_of_ne _ _ _ hj, set_response_of_ne _ _ _ _ hj]
    · unfold process_flush
      simp only [hl, if_neg hc0, if_neg hne, if_neg hlen, if_neg hlen0]
      simp [FD_ISSET, FD_CLR]
    · intro x hx
      unfold process_flush
      simp only [hl, if_neg hc0, if_neg hne, if_neg hlen, if_neg hlen0]
      simp [FD_ISSET, FD_CLR, Function.update_noteq hx]

/-- Socket 4 after two handshakes, with `1:WHITE` pending for record 1. -/
theorem flush_of_sole_owner_witness :
    flush_message 4 0 (run State.init [.recv 4 BEGIN_EVENT clean_tail, .recv 5 BEGIN_EVENT clean_tail])
      = some ['1', ':', 'W', 'H', 'I', 'T', 'E'] ∧
    ((process_flush 4 0 7
      (run State.init [.recv 4 BEGIN_EVENT clean_tail, .recv 5 BEGIN_EVENT clean_tail])).clients 1).response = [] :=
  ⟨((flush_of_sole_owner (run State.init [.recv 4 BEGIN_EVENT clean_tail, .recv 5 BEGIN_EVENT clean_tail])
      4 1 0 (by decide) (by decide) (by decide) (by decide) (by
        intro j h1 h2
        revert h1
        revert j
        decide)).2 (by decide)).1,
    congrArg client_t.response
      ((flush_of_sole_owner (run State.init [.recv 4 BEGIN_EVENT clean_tail, .recv 5 BEGIN_EVENT clean_tail])
        4 1 0 (by decide) (by decide) (by decide) (by decide) (by
          intro j h1 h2
          revert h1
          revert j
          decide)).2 (by decide)).2.2.1⟩

/-! ## C19: the frame of a move -/

theorem handle_move_effect (s : State) (i A B : Nat) (tok : List Char)
    (hAid : (s.clients A).id ≠ 0) (hAB : (s.clients A).opponent_id = B) (hne : B ≠ A) :
    (handle_move i A tok s).clients A = { s.clients A with fd := i } ∧
    (handle_move i A tok s).clients B = { s.clients B with response := tok } ∧
    (∀ j, j ≠ A → j ≠ B → (handle_move i A tok s).clients j = s.clients j) ∧
    (handle_move i A tok s).awaiting = s.awaiting ∧
    (handle_move i A tok s).r_mask = s.r_mask ∧
    (handle_move i A tok s).w_mask = FD_SET (s.clients B).fd s.w_mask := by
  have hAB2 : A ≠ B := fun e => hne e.symm
  have hid2 : ¬ ((set_response s.clients B tok A).id = 0) := by
    rw [set_response_id]; exact hAid
  unfold handle_move
  rw [hAB]
  simp only [if_neg hid2]
  refine ⟨?_, ?_, ?_, trivial, trivial, ?_⟩
  · unfold set_fd
    rw [Function.update_same, set_response_of_ne _ _ _ _ hAB2]
  · rw [set_fd_of_ne _ _ _ _ hne]
    unfold set_response
    rw [Function.update_same]
  · intro j hjA hjB
    rw [set_fd_of_ne _ _ _ _ hjA, set_response_of_ne _ _ _ _ hjB]
  · have h1 : (set_fd (set_response s.clients B tok) A i A).opponent_id = B := by
      rw [set_fd_opponent_id, set_response_opponent_id, hAB]
    rw [h1, set_fd_fd, if_neg hne, set_response_fd]

/-- C19 (counterexample): in the paired game the record `1:END:x` carries the
non-empty NUL-free payload `END:x`, which is neither `END` nor `RECONNECT`, yet
it is handled as a Terminate: slot 1 is reset, so an `id` field changes, both
when the bytes arrive in a clean array and when they arrive with their
terminating NUL in a dirty one. -/
theorem C19_payload_with_end_field_terminates :
    (paired_4_5.clients 1).id = 1 ∧
    (paired_4_5.clients 1).opponent_id = 2 ∧
    (paired_4_5.clients 2).id = 2 ∧
    ['E', 'N', 'D', ':', 'x'] ≠ [] ∧
    ['E', 'N', 'D', ':', 'x'] ≠ END_EVENT ∧ ['E', 'N', 'D', ':', 'x'] ≠ RECONNECT_EVENT ∧
    '\x00' ∉ ['E', 'N', 'D', ':', 'x'] ∧
    ((process_record 4 (fmt_d 1 ++ ':' :: ['E', 'N', 'D', ':', 'x']) clean_tail
      paired_4_5).clients 1).id = 0 ∧
    ((process_record 4 (fmt_d 1 ++ ':' :: (['E', 'N', 'D', ':', 'x'] ++ '\x00' :: []))
      ['d', 'e', 'f'] paired_4_5).clients 1).id = 0 := by
  decide

/-- C19 (amended): for an allocated record `A` paired with an allocated record
`B ≠ A` and a NUL-free payload `p` whose text before its first `':'` is neither
`END` nor `RECONNECT`, the record `<A>:<p>` received on socket `i` with its
terminating NUL (and any bytes `rest` after it), whatever bytes `u` follow the
received ones in the array, sets `clients[A].fd = i` and changes no other field
of `A`, replaces the pending buffer of `B` by that text and changes no other
field of `B`, leaves every other slot, `awaiting` and the read set unchanged,
and adds `clients[B].fd` to the write set. -/
theorem C19_move_frame (s : State) (i A B : Nat) (p rest u : List Char)
    (hA : A < MAX_CLIENTS) (hAid : (s.clients A).id ≠ 0)
    (hAB : (s.clients A).opponent_id = B)
    (hB : B < MAX_CLIENTS) (hBid : (s.clients B).id ≠ 0) (hne : B ≠ A)
    (hnul : '\x00' ∉ p)
    (hE : p.takeWhile (fun c => c != ':') ≠ END_EVENT)
    (hR : p.takeWhile (fun c => c != ':') ≠ RECONNECT_EVENT) :
    (process_record i (fmt_d A ++ ':' :: (p ++ '\x00' :: rest)) u s).clients A
      = { s.clients A with fd := i } ∧
    (process_record i (fmt_d A ++ ':' :: (p ++ '\x00' :: rest)) u s).clients B
      = { s.clients B with response := p.takeWhile (fun c => c != ':') } ∧
    (∀ j, j ≠ A → j ≠ B →
      (process_record i (fmt_d A ++ ':' :: (p ++ '\x00' :: rest)) u s).clients j
        = s.clients j) ∧
    (process_record i (fmt_d A ++ ':' :: (p ++ '\x00' :: rest)) u s).awaiting = s.awaiting ∧
    (process_record i (fmt_d A ++ ':' :: (p ++ '\x00' :: rest)) u s).r_mask = s.r_mask ∧
    (process_record i (fmt_d A ++ ':' :: (p ++ '\x00' :: rest)) u s).w_mask
      = FD_SET (s.clients B).fd s.w_mask := by
  have _ := hB
  have _ := hBid
  have hp : c_str ((p ++ '\x00' :: rest) ++ u) = p := c_str_framed p rest u hnul
  have htok : (strsep p).1 = p.takeWhile (fun c => c != ':') := strsep_fst_eq_takeWhile p
  rw [process_record_id s i A _ u hA, hp, htok, if_neg hE, if_neg hR]
  exact handle_move_effect s i A B _ hAid hAB hne

/-- C19 (witness): record 1 of the paired game sends `1:e2e4\0` on socket 4, in
front of the stale bytes `def`. -/
theorem C19_move_frame_witness :
    (process_record 4 (fmt_d 1 ++ ':' :: (['e', '2', 'e', '4'] ++ '\x00' :: []))
      ['d', 'e', 'f'] paired_4_5).clients 1 = { paired_4_5.clients 1 with fd := 4 } ∧
    (process_record 4 (fmt_d 1 ++ ':' :: (['e', '2', 'e', '4'] ++ '\x00' :: []))
      ['d', 'e', 'f'] paired_4_5).clients 2
      = { paired_4_5.clients 2 with
          response := ['e', '2', 'e', '4'].takeWhile (fun c => c != ':') } ∧
    (∀ j, j ≠ 1 → j ≠ 2 →
      (process_record 4 (fmt_d 1 ++ ':' :: (['e', '2', 'e', '4'] ++ '\x00' :: []))
        ['d', 'e', 'f'] paired_4_5).clients j = paired_4_5.clients j) ∧
    (process_record 4 (fmt_d 1 ++ ':' :: (['e', '2', 'e', '4'] ++ '\x00' :: []))
      ['d', 'e', 'f'] paired_4_5).awaiting = paired_4_5.awaiting ∧
    (process_record 4 (fmt_d 1 ++ ':' :: (['e', '2', 'e', '4'] ++ '\x00' :: []))
      ['d', 'e', 'f'] paired_4_5).r_mask = paired_4_5.r_mask ∧
    (process_record 4 (fmt_d 1 ++ ':' :: (['e', '2', 'e', '4'] ++ '\x00' :: []))
      ['d', 'e', 'f'] paired_4_5).w_mask
      = FD_SET (paired_4_5.clients 2).fd paired_4_5.w_mask :=
  C19_move_frame paired_4_5 4 1 2 ['e', '2', 'e', '4'] [] ['d', 'e', 'f']
    (by decide) (by decide) (by decide)
    (by decide) (by decide) (by decide) (by decide) (by decide) (by decide)

end Chess
